import Mathlib

/-!
# Verification of the Next.js request-adapter pipeline

Shallow embedding of
`packages/next/src/server/request-adapter/minimal-mode-request-adapter.ts` and
`packages/next/src/server/request-adapter/internal-request-adapter.ts`.

Modelling conventions:
* JavaScript objects used as string maps (header maps, parsed query, request
  metadata) are modelled as association lists with first-occurrence lookup,
  in-place replacement on assignment and removal on `delete`.
* A query value is `Option String`: `none` models an entry whose value is
  `undefined` (JS `obj.k = undefined` keeps the key), `some s` a string value.
  Array-valued entries (`string[]`) are not modelled; no claim depends on them.
* Header values are `string | string[]` (`HVal.str` / `HVal.list`).
* JS truthiness of strings/values is made explicit (`jsTruthyS`, …): `""`,
  `null` and `undefined` are falsy.
* Language built-ins and collaborators that live outside the two source files
  (`JSON.parse`, `Number`, `new URL(...).pathname`, `denormalizePagePath`,
  `isDynamicRoute`, the i18n provider, the route-matcher manager, the
  `getUtils` bundle, …) are abstracted as function-valued parameters in a
  configuration record; theorems pin their values at the relevant inputs.
-/

/-- A JavaScript header value: `string | string[]`. -/
inductive HVal where
  | str (s : String)
  | list (l : List String)
deriving DecidableEq, Inhabited

/-- A request-metadata value (`addRequestMeta` stores strings, booleans, and
`null` when a `string | null` pathname is stored). -/
inductive MetaVal where
  | str (s : String)
  | bool (b : Bool)
  | nullV
deriving DecidableEq, Inhabited

/-- First-occurrence lookup in an association list (JS property read). -/
def getA {α : Type} (l : List (String × α)) (k : String) : Option α :=
  (l.find? (fun kv => kv.1 == k)).map Prod.snd

/-- JS property assignment: replace the first binding of `k`, else append. -/
def setA {α : Type} : List (String × α) → String → α → List (String × α)
  | [], k, v => [(k, v)]
  | kv :: rest, k, v =>
    if kv.1 == k then (k, v) :: rest else kv :: setA rest k v

/-- JS `delete obj[k]`: remove every binding of `k`. -/
def delA {α : Type} (l : List (String × α)) (k : String) : List (String × α) :=
  l.filter (fun kv => kv.1 != k)

theorem getA_nil {α : Type} (k : String) : getA ([] : List (String × α)) k = none := by
  simp [getA]

theorem getA_cons {α : Type} (kv : String × α) (rest : List (String × α)) (k : String) :
    getA (kv :: rest) k = if kv.1 == k then some kv.2 else getA rest k := by
  by_cases h : kv.1 == k
  · simp [getA, List.find?_cons_of_pos, h]
  · simp [getA, List.find?_cons_of_neg, h]

theorem delA_nil {α : Type} (k : String) : delA ([] : List (String × α)) k = [] := by
  simp [delA]

theorem delA_cons {α : Type} (kv : String × α) (rest : List (String × α)) (k : String) :
    delA (kv :: rest) k = if kv.1 == k then delA rest k else kv :: delA rest k := by
  by_cases h : kv.1 == k
  · simp [delA, List.filter_cons, bne, h]
  · simp [delA, List.filter_cons, bne, h]

theorem getA_setA_same {α : Type} (l : List (String × α)) (k : String) (v : α) :
    getA (setA l k v) k = some v := by
  induction l with
  | nil => simp [setA, getA_cons, getA_nil]
  | cons kv rest ih =>
    by_cases h : kv.1 == k
    · simp [setA, h, getA_cons]
    · simp [setA, h, getA_cons, ih]

theorem getA_setA_other {α : Type} (l : List (String × α)) (k k' : String) (v : α)
    (h : k' ≠ k) : getA (setA l k v) k' = getA l k' := by
  have hkf : (k == k') = false := beq_eq_false_iff_ne.mpr (Ne.symm h)
  induction l with
  | nil => simp [setA, getA_cons, getA_nil, hkf]
  | cons kv rest ih =>
    by_cases hk : kv.1 == k
    · have hkk : kv.1 = k := by simpa using hk
      simp [setA, hk, getA_cons, hkf, hkk]
    · simp [setA, hk, getA_cons, ih]

theorem getA_delA_same {α : Type} (l : List (String × α)) (k : String) :
    getA (delA l k) k = none := by
  induction l with
  | nil => simp [delA_nil, getA_nil]
  | cons kv rest ih =>
    by_cases h : kv.1 == k
    · simp [delA_cons, h, ih]
    · simp [delA_cons, h, getA_cons, ih]

theorem getA_delA_other {α : Type} (l : List (String × α)) (k k' : String)
    (h : k' ≠ k) : getA (delA l k) k' = getA l k' := by
  induction l with
  | nil => simp [delA_nil]
  | cons kv rest ih =>
    by_cases hk : kv.1 == k
    · have hkk : kv.1 = k := by simpa using hk
      have hkf : (kv.1 == k') = false := by
        rw [hkk]; exact beq_eq_false_iff_ne.mpr (Ne.symm h)
      simp [delA_cons, hk, getA_cons, hkf, ih]
    · simp [delA_cons, hk, getA_cons, ih]

/-- The parsed query mapping (`NextParsedUrlQuery`): values may be
`undefined` (`none`) or strings. -/
abbrev Query := List (String × Option String)

/-- The request header mapping. -/
abbrev Headers := List (String × HVal)

/-- The request-metadata side channel (`addRequestMeta`). -/
abbrev Meta := List (String × MetaVal)

/-- JS truthiness of a `string | null | undefined` value. -/
def jsTruthyS : Option String → Bool
  | some s => s != ""
  | none => false

/-- JS string coercion of a `string | null` value (template literals render
`null` as `"null"`). -/
def jsStrOfOpt : Option String → String
  | some s => s
  | none => "null"

/-- JS truthiness of a header read: absent and `""` are falsy; any array is
truthy. -/
def jsTruthyH : Option HVal → Bool
  | none => false
  | some (HVal.str s) => s != ""
  | some (HVal.list _) => true

/-- The value of a query entry as JS sees it: an absent key and an
`undefined` value both read as `undefined`. -/
def getQv (q : Query) (k : String) : Option String :=
  (getA q k).getD none

/-- JS truthiness of `query[k]`. -/
def jsTruthyQ (q : Query) (k : String) : Bool :=
  jsTruthyS (getQv q k)

/-- JS `query[k] || ''`. -/
def qValOr (q : Query) (k : String) : String :=
  (getQv q k).getD ""

/-- `Object.assign(target, src)` on query-shaped objects. -/
def assignQ (target src : Query) : Query :=
  src.foldl (fun acc kv => setA acc kv.1 kv.2) target

/-- The mutable request half of the envelope (`BaseNextRequest` plus the
request-meta side channel): headers, raw URL, method, body chunks (byte
lists), metadata. -/
structure ReqState where
  headers : Headers
  url : String
  method : String
  body : List (List Nat)
  meta : Meta
deriving DecidableEq, Inhabited

/-- `NextUrlWithParsedQuery` as the pipeline uses it: pathname
(`string | null`), hostname (for `getHostname`), parsed query. -/
structure PUrl where
  pathname : Option String
  hostname : Option String
  query : Query
deriving DecidableEq, Inhabited

/-- The full request envelope threaded through `adapt`. -/
structure AdaptState where
  req : ReqState
  parsedURL : PUrl
deriving DecidableEq, Inhabited

/-! ## Collaborator interfaces of `MinimalRequestAdapter`

The adapter's external collaborators (pathname normalizers from
`../future/normalizers/request/*`, the i18n provider, the route-matcher
manager, `getUtils` from `../server-utils`, and shared-lib helpers) are not
part of the two source files; they are modelled as opaque functions with the
interfaces the adapter consumes. -/

/-- `LocaleAnalysisResult` of the i18n provider:
`{pathname, detectedLocale?, inferredFromDefault}`. -/
structure LocaleAnalysisResult where
  pathname : String
  detectedLocale : Option String
  inferredFromDefault : Bool
deriving DecidableEq, Inhabited

/-- A domain-locale entry; only the `defaultLocale` field is consumed. -/
structure DomainLocale where
  defaultLocale : String
deriving DecidableEq, Inhabited

/-- The i18n provider collaborator: `analyze(pathname, {defaultLocale?})`,
`detectDomainLocale(hostname?)`, and `config.defaultLocale`. -/
structure I18NProviderModel where
  analyze : String → Option String → LocaleAnalysisResult
  detectDomainLocale : Option String → Option DomainLocale
  configDefaultLocale : String

/-- A route-matcher result: `{definition: {pathname}, params?}`. -/
structure RouteMatch where
  definitionPathname : String
  params : Option Query
deriving DecidableEq, Inhabited

/-- A `PathnameNormalizer`: `match(pathname)` and
`normalize(pathname, matched)`.  (`match` is a Lean keyword, hence
`matchFn`.) -/
structure Normalizer where
  matchFn : String → Bool
  normalize : String → Bool → String

/-- The `this.normalizers` record built in the constructor.  `basePath` and
`i18n` expose only the one-argument `normalize` the adapter calls. -/
structure Normalizers where
  basePath : Option (String → String)
  action : Option Normalizer
  postponed : Option Normalizer
  rsc : Option Normalizer
  prefetchRSC : Option Normalizer
  data : Option Normalizer
  i18n : Option (String → String)

/-- Result of `utils.normalizeDynamicRouteParams`. -/
structure ParamsResult where
  hasValidParams : Bool
  params : Query
deriving DecidableEq, Inhabited

/-- The `getUtils` bundle.  `handleRewrites` reads the request headers/URL and
mutates only the parsed URL, returning the rewrite params; `normalizeVercelUrl`
rewrites only `req.url`; `getParamsFromRouteMatches(req, opts, locale)` returns
the params and the `opts.locale` output. -/
structure Utils where
  handleRewrites : Headers → String → PUrl → PUrl × Query
  normalizeDynamicRouteParams : Query → Bool → ParamsResult
  dynamicRouteMatcher : Option (String → Option Query)
  getParamsFromRouteMatches : Headers → String → Query × Option String
  interpolateDynamicPath : String → Query → String
  normalizeVercelUrl : String → Bool → List String → String
  defaultRouteMatches : Option Query
  defaultRouteRegexGroups : List String

/-- Static configuration plus abstracted collaborators of
`MinimalRequestAdapter`:

* `urlPathnameOf s` models `new URL(s, 'http://localhost').pathname`;
* `parseUrl` / `formatUrl` model `parseUrl(req.url)` (pathname plus an opaque
  remainder) and `formatUrl`;
* `stripFlightHeaders` rewrites only the header map. -/
structure MinimalConfig where
  normalizers : Normalizers
  appEnabled : Bool
  i18nProvider : Option I18NProviderModel
  matchersMatch : String → Option LocaleAnalysisResult → Option RouteMatch
  getUtils : Bool → String → Utils
  urlPathnameOf : String → String
  denormalizePagePath : String → String
  isDynamicRoute : String → Bool
  normalizeNextQueryParam : String → Option String
  getHostname : Option String → Headers → Option String
  utf8Decode : List Nat → String
  stripFlightHeaders : Headers → Headers
  parseUrl : String → Option String × String
  formatUrl : Option String × String → String

/-! ## `MinimalRequestAdapter` embedding -/

/-- The private `normalize` method's normalizer list, pushed in source order:
data, postponed, prefetchRSC (before rsc, as the code comments), rsc, action
(lines 95-118). -/
def orderedNormalizers (ns : Normalizers) : List Normalizer :=
  ns.data.toList ++ ns.postponed.toList ++ ns.prefetchRSC.toList ++
    ns.rsc.toList ++ ns.action.toList

/-- The first-match-wins loop of the private `normalize` method
(lines 120-126). -/
def firstMatchNormalize : List Normalizer → String → String
  | [], pathname => pathname
  | n :: rest, pathname =>
    if n.matchFn pathname then n.normalize pathname true
    else firstMatchNormalize rest pathname

/-- `MinimalRequestAdapter.normalize` (lines 95-127). -/
def normalizeShape (ns : Normalizers) (pathname : String) : String :=
  firstMatchNormalize (orderedNormalizers ns) pathname

/-- Optional-chained `this.normalizers.X?.match(p)`: `false` when the
normalizer is not configured. -/
def normMatchesOpt (n : Option Normalizer) (p : String) : Bool :=
  match n with
  | some nn => nn.matchFn p
  | none => false

/-- `this.normalizers.X.normalize(p, m)` on a normalizer known to be
configured (identity in the unreachable `none` case). -/
def normalizeOpt (n : Option Normalizer) (p : String) (m : Bool) : String :=
  match n with
  | some nn => nn.normalize p m
  | none => p

/-- Shared tail of the two RSC match branches of `attachRSCRequestMetadata`
(lines 169-177): set the reserved data-request query key and, when `req.url`
is truthy, rewrite the URL's pathname component to the normalized pathname. -/
def attachRSCTail (cfg : MinimalConfig) (s : AdaptState) : AdaptState :=
  let s1 : AdaptState :=
    { s with parsedURL :=
        { s.parsedURL with query := setA s.parsedURL.query "__nextDataReq" (some "1") } }
  if s1.req.url != "" then
    let parsed := cfg.parseUrl s1.req.url
    { s1 with req := { s1.req with url := cfg.formatUrl (s1.parsedURL.pathname, parsed.2) } }
  else s1

/-- The prefetch-RSC match branch of `attachRSCRequestMetadata` (lines
141-151): normalize the pathname, force the RSC and router-prefetch marker
headers, record both metadata facts. -/
def attachPrefetchBranch (cfg : MinimalConfig) (s : AdaptState) : AdaptState :=
  { req := { s.req with
      headers := setA (setA s.req.headers "rsc" (HVal.str "1"))
        "next-router-prefetch" (HVal.str "1"),
      meta := setA (setA s.req.meta "isRSCRequest" (MetaVal.bool true))
        "isPrefetchRSCRequest" (MetaVal.bool true) },
    parsedURL := { s.parsedURL with
      pathname := some (normalizeOpt cfg.normalizers.prefetchRSC
        (jsStrOfOpt s.parsedURL.pathname) true) } }

/-- The plain-RSC match branch of `attachRSCRequestMetadata` (lines
152-160). -/
def attachRSCBranch (cfg : MinimalConfig) (s : AdaptState) : AdaptState :=
  { req := { s.req with
      headers := setA s.req.headers "rsc" (HVal.str "1"),
      meta := setA s.req.meta "isRSCRequest" (MetaVal.bool true) },
    parsedURL := { s.parsedURL with
      pathname := some (normalizeOpt cfg.normalizers.rsc
        (jsStrOfOpt s.parsedURL.pathname) true) } }

/-- `MinimalRequestAdapter.attachRSCRequestMetadata` (lines 129-178); throws
(`Except.error`) on a falsy pathname. -/
def attachRSCRequestMetadata (cfg : MinimalConfig) (s : AdaptState) :
    Except String AdaptState :=
  if !jsTruthyS s.parsedURL.pathname then
    Except.error "Invariant: pathname is required"
  else if !cfg.appEnabled then Except.ok s
  else if normMatchesOpt cfg.normalizers.prefetchRSC (jsStrOfOpt s.parsedURL.pathname) then
    Except.ok (attachRSCTail cfg (attachPrefetchBranch cfg s))
  else if normMatchesOpt cfg.normalizers.rsc (jsStrOfOpt s.parsedURL.pathname) then
    Except.ok (attachRSCTail cfg (attachRSCBranch cfg s))
  else
    Except.ok { s with req := { s.req with headers := cfg.stripFlightHeaders s.req.headers } }

/-- Output of the opening of `adapt` (lines 184-213): invariant checks,
base-path strip, the line-201 i18n analysis of the parsed pathname, RSC
metadata attachment, and `/index` normalization.  `mp` is the validated
`x-matched-path` header string. -/
structure PreOut where
  s : AdaptState
  i18n : Option LocaleAnalysisResult
  mp : String
deriving Inhabited

/-- Lines 197-199: strip the base path from `req.url` when configured. -/
def preBasePath (cfg : MinimalConfig) (s0 : AdaptState) : AdaptState :=
  { s0 with req := { s0.req with
      url :=
        match cfg.normalizers.basePath with
        | some bp => bp s0.req.url
        | none => s0.req.url } }

/-- Lines 205-213: `/index` normalization of `req.url` and the parsed
pathname when the app directory is enabled. -/
def preIndexNormalize (cfg : MinimalConfig) (s2 : AdaptState) : AdaptState :=
  if cfg.appEnabled then
    { s2 with
      req := { s2.req with
        url :=
          if s2.req.url = "/index" || s2.req.url.startsWith "/index?" then
            "/" ++ s2.req.url.drop 6
          else s2.req.url },
      parsedURL := { s2.parsedURL with
        pathname :=
          if s2.parsedURL.pathname = some "/index" then some "/"
          else s2.parsedURL.pathname } }
  else s2

/-- Lines 184-213 of `MinimalRequestAdapter.adapt`.  The line-201 i18n
analysis reads the parsed pathname, which the base-path strip does not
touch. -/
def preStage (cfg : MinimalConfig) (s0 : AdaptState) : Except String PreOut :=
  match getA s0.req.headers "x-matched-path" with
  | some (HVal.str mp) =>
    if mp = "" then
      Except.error "Invariant: x-matched-path header is not present but we are in minimal mode"
    else if !jsTruthyS s0.parsedURL.pathname then
      Except.error "Invariant: pathname must be set"
    else
      match attachRSCRequestMetadata cfg (preBasePath cfg s0) with
      | Except.error e => Except.error e
      | Except.ok s2 =>
        Except.ok
          { s := preIndexNormalize cfg s2,
            i18n := cfg.i18nProvider.map
              (fun pr => pr.analyze (jsStrOfOpt s0.parsedURL.pathname) none),
            mp := mp }
  | _ =>
    Except.error "Invariant: x-matched-path header is not present but we are in minimal mode"

/-- Output of lines 215-254: the two extracted pathnames and the state after
the data-shape / postponed-shape handling. -/
structure AOut where
  s : AdaptState
  i18n : Option LocaleAnalysisResult
  matchedPath : String
  urlPathname : String
deriving Inhabited

/-- The postponed branch's state mutation (lines 237-245): body drained
(chunks concatenated and UTF-8 decoded) into the `postponed` metadata slot;
the headers the subsequent `x-now-route-matches` check reads are untouched
by it. -/
def extractPostponedState (cfg : MinimalConfig) (p : PreOut) : AdaptState :=
  { p.s with req := { p.s.req with
      meta := setA p.s.req.meta "postponed"
        (MetaVal.str (cfg.utf8Decode p.s.req.body.flatten)) } }

/-- Lines 215-254 of `MinimalRequestAdapter.adapt`: extract the matched and
URL pathnames, mark a data request when the URL pathname has the data shape,
else drain the body of a POST postponed request into the `postponed` metadata
slot and, when the `x-now-route-matches` header is falsy, recompute the URL
pathname by postponed-normalizing the matched pathname. -/
def extractStage (cfg : MinimalConfig) (p : PreOut) : AOut :=
  if normMatchesOpt cfg.normalizers.data (cfg.urlPathnameOf p.s.req.url) then
    { s := { p.s with parsedURL := { p.s.parsedURL with
        query := setA p.s.parsedURL.query "__nextDataReq" (some "1") } },
      i18n := p.i18n, matchedPath := cfg.urlPathnameOf p.mp,
      urlPathname := cfg.urlPathnameOf p.s.req.url }
  else if normMatchesOpt cfg.normalizers.postponed (cfg.urlPathnameOf p.mp)
      && p.s.req.method == "POST" then
    { s := extractPostponedState cfg p,
      i18n := p.i18n, matchedPath := cfg.urlPathnameOf p.mp,
      urlPathname :=
        if !jsTruthyH (getA p.s.req.headers "x-now-route-matches") then
          normalizeOpt cfg.normalizers.postponed (cfg.urlPathnameOf p.mp) true
        else cfg.urlPathnameOf p.s.req.url }
  else
    { s := p.s, i18n := p.i18n, matchedPath := cfg.urlPathnameOf p.mp,
      urlPathname := cfg.urlPathnameOf p.s.req.url }

/-- Lines 296-310 of `MinimalRequestAdapter.adapt`: determine dynamicness of
the (denormalized) source pathname; when it is NOT syntactically dynamic,
query the route-matcher manager and, on a match, adopt the match's definition
pathname and re-derive dynamicness from whether params were resolved. -/
def resolveSrcPathname (isDyn : String → Bool)
    (mm : String → Option LocaleAnalysisResult → Option RouteMatch)
    (srcPathname : String) (lar : Option LocaleAnalysisResult) : String × Bool :=
  let pageIsDynamic := isDyn srcPathname
  if !pageIsDynamic then
    match mm srcPathname lar with
    | some m => (m.definitionPathname, m.params.isSome)
    | none => (srcPathname, pageIsDynamic)
  else (srcPathname, pageIsDynamic)

/-- Output of lines 256-317. -/
structure BOut where
  s : AdaptState
  i18n : Option LocaleAnalysisResult
  lar : Option LocaleAnalysisResult
  defaultLocale : Option String
  matchedPath : String
  normalizedUrlPath : String
  srcPathname : String
  pageIsDynamic : Bool
deriving Inhabited

/-- Lines 256-317 of `MinimalRequestAdapter.adapt`: shape-normalize the
matched path, compute the normalized URL path, resolve the locale (writing
`__nextLocale` and the inferred marker), denormalize the page path, resolve
the source pathname, and restore the locale-stripped pathname. -/
def stageB (cfg : MinimalConfig) (a : AOut) : BOut :=
  let matchedPath1 := normalizeShape cfg.normalizers a.matchedPath
  let normalizedUrlPath0 :=
    match cfg.normalizers.data with
    | some dn => dn.normalize a.urlPathname false
    | none => a.urlPathname
  let normalizedUrlPath :=
    match cfg.normalizers.i18n with
    | some f => f a.urlPathname
    | none => normalizedUrlPath0
  let domainLocale := cfg.i18nProvider.bind
    (fun pr => pr.detectDomainLocale (cfg.getHostname a.s.parsedURL.hostname a.s.req.headers))
  let defaultLocale :=
    match domainLocale with
    | some d => some d.defaultLocale
    | none => cfg.i18nProvider.map (fun pr => pr.configDefaultLocale)
  let lar := cfg.i18nProvider.map (fun pr => pr.analyze matchedPath1 defaultLocale)
  let q' :=
    match lar with
    | some r =>
      let qa := setA a.s.parsedURL.query "__nextLocale" r.detectedLocale
      if r.inferredFromDefault then
        setA qa "__nextInferredLocaleFromDefault" (some "1")
      else delA qa "__nextInferredLocaleFromDefault"
    | none => a.s.parsedURL.query
  let matchedPath2 := cfg.denormalizePagePath matchedPath1
  let sr := resolveSrcPathname cfg.isDynamicRoute cfg.matchersMatch matchedPath2 lar
  let matchedPath3 :=
    match lar with
    | some r => r.pathname
    | none => matchedPath2
  { s := { a.s with parsedURL := { a.s.parsedURL with query := q' } },
    i18n := a.i18n, lar := lar, defaultLocale := defaultLocale,
    matchedPath := matchedPath3, normalizedUrlPath := normalizedUrlPath,
    srcPathname := sr.1, pageIsDynamic := sr.2 }

/-- Line 334: prepend the default locale to the pathname before rewrites when
it applies and no locale was detected in the original pathname. -/
def preRewritePUrl (b : BOut) : PUrl :=
  if jsTruthyS b.defaultLocale && !jsTruthyS (b.i18n.bind (fun r => r.detectedLocale)) then
    { b.s.parsedURL with
      pathname := some ("/" ++ b.defaultLocale.getD "" ++ jsStrOfOpt b.s.parsedURL.pathname) }
  else b.s.parsedURL

/-- Output of lines 319-345. -/
structure C1Out where
  s : AdaptState
  utils : Utils
  rewriteParamKeys : List String
  didRewrite : Bool
  i18n : Option LocaleAnalysisResult
  defaultLocale : Option String
  matchedPath : String
  normalizedUrlPath : String
  srcPathname : String
  pageIsDynamic : Bool

/-- Lines 319-345 of `MinimalRequestAdapter.adapt`: build the utils bundle,
prepend the default locale, run the rewrite engine, and record `rewroteURL`
metadata iff the pathname changed (and is truthy). -/
def stageC1 (cfg : MinimalConfig) (b : BOut) : C1Out :=
  let utils := cfg.getUtils b.pageIsDynamic b.srcPathname
  let pu1 := preRewritePUrl b
  let hr := utils.handleRewrites b.s.req.headers b.s.req.url pu1
  let rewriteParamKeys := hr.2.map Prod.fst
  let didRewrite := pu1.pathname ≠ hr.1.pathname
  let meta' :=
    if didRewrite && jsTruthyS hr.1.pathname then
      setA b.s.req.meta "rewroteURL" (MetaVal.str (jsStrOfOpt hr.1.pathname))
    else b.s.req.meta
  { s := { req := { b.s.req with meta := meta' }, parsedURL := hr.1 },
    utils := utils, rewriteParamKeys := rewriteParamKeys,
    didRewrite := didRewrite, i18n := b.i18n, defaultLocale := b.defaultLocale,
    matchedPath := b.matchedPath, normalizedUrlPath := b.normalizedUrlPath,
    srcPathname := b.srcPathname, pageIsDynamic := b.pageIsDynamic }

/-- One iteration of the query-key normalization loop (lines 348-358): when
`normalizeNextQueryParam` recognizes the key, copy its value to the canonical
key, track the canonical key for later removal, and delete the original. -/
def normParamStep (cfg : MinimalConfig) (acc : Query × List String) (k : String) :
    Query × List String :=
  let value : Option String := (getA acc.1 k).getD none
  match cfg.normalizeNextQueryParam k with
  | some nk => (delA (setA acc.1 nk value) k, acc.2 ++ [nk])
  | none => acc

/-- The query-key normalization loop (lines 346-358), iterating over a
snapshot of the query's keys; returns the rewritten query and the collected
route-param keys. -/
def normParamLoop (cfg : MinimalConfig) (q : Query) : Query × List String :=
  (q.map Prod.fst).foldl (normParamStep cfg) (q, [])

/-- Lines 362-382 of the dynamic-route parameter block: parse the params out
of the query; when invalid and the URL's own pathname is not dynamic-shaped,
recover them positionally via `utils.dynamicRouteMatcher` (the discarded
`normalizeDynamicRouteParams(matcherParams)` call at line 378 has no effect
on the envelope and is not modelled). -/
def dynPR1 (cfg : MinimalConfig) (u : Utils) (q : Query)
    (normalizedUrlPath : String) (pageIsDynamic : Bool) : ParamsResult :=
  if !(u.normalizeDynamicRouteParams q false).hasValidParams && pageIsDynamic
      && !cfg.isDynamicRoute normalizedUrlPath then
    match u.dynamicRouteMatcher with
    | some drm =>
      match drm normalizedUrlPath with
      | some mps =>
        { hasValidParams := true,
          params := assignQ (u.normalizeDynamicRouteParams q false).params mps }
      | none => u.normalizeDynamicRouteParams q false
    | none => u.normalizeDynamicRouteParams q false
  else u.normalizeDynamicRouteParams q false

/-- Lines 388-414: when the `x-now-route-matches` header is truthy, the
matched path is dynamic and no valid params were found yet, extract params
(and possibly an explicit locale, which overwrites `__nextLocale` and clears
the inferred marker) from that header.  Returns the updated query, the
params value, and the last `paramsResult`. -/
def dynRouteMatchesStep (cfg : MinimalConfig) (u : Utils) (headers : Headers)
    (q : Query) (matchedPath : String) (pr1 : ParamsResult)
    (params1 : Option Query) : Query × Option Query × ParamsResult :=
  if jsTruthyH (getA headers "x-now-route-matches")
      && cfg.isDynamicRoute matchedPath && !pr1.hasValidParams then
    (if jsTruthyS (u.getParamsFromRouteMatches headers (qValOr q "__nextLocale")).2 then
       delA (setA q "__nextLocale"
         (u.getParamsFromRouteMatches headers (qValOr q "__nextLocale")).2)
         "__nextInferredLocaleFromDefault"
     else q,
     if (u.normalizeDynamicRouteParams
         (u.getParamsFromRouteMatches headers (qValOr q "__nextLocale")).1 true).hasValidParams then
       some (u.normalizeDynamicRouteParams
         (u.getParamsFromRouteMatches headers (qValOr q "__nextLocale")).1 true).params
     else params1,
     u.normalizeDynamicRouteParams
       (u.getParamsFromRouteMatches headers (qValOr q "__nextLocale")).1 true)
  else (q, params1, pr1)

/-- Lines 416-425: fall back to the declared default route matches when the
literal dynamic-route name itself is being requested. -/
def dynParams3 (u : Utils) (normalizedUrlPath srcPathname : String)
    (pageIsDynamic : Bool) (step2 : Query × Option Query × ParamsResult) :
    Option Query :=
  if pageIsDynamic && u.defaultRouteMatches.isSome
      && normalizedUrlPath == srcPathname && !step2.2.2.hasValidParams
      && !(u.normalizeDynamicRouteParams ((step2.2.1).getD []) true).hasValidParams then
    u.defaultRouteMatches
  else step2.2.1

/-- The dynamic-route parameter block (lines 360-431): resolve params from the
query, the URL pathname, the `x-now-route-matches` header (which may override
the locale), or the default route matches, then interpolate them into the
matched path and the raw URL.  Returns the updated query, matched path and
URL. -/
def dynamicStage (cfg : MinimalConfig) (u : Utils) (headers : Headers)
    (url : String) (q : Query) (matchedPath normalizedUrlPath srcPathname : String)
    (pageIsDynamic : Bool) : Query × String × String :=
  if pageIsDynamic then
    match dynParams3 u normalizedUrlPath srcPathname pageIsDynamic
        (dynRouteMatchesStep cfg u headers q matchedPath
          (dynPR1 cfg u q normalizedUrlPath pageIsDynamic)
          (if (dynPR1 cfg u q normalizedUrlPath pageIsDynamic).hasValidParams then
            some (dynPR1 cfg u q normalizedUrlPath pageIsDynamic).params
          else some [])) with
    | some ps =>
      ((dynRouteMatchesStep cfg u headers q matchedPath
          (dynPR1 cfg u q normalizedUrlPath pageIsDynamic)
          (if (dynPR1 cfg u q normalizedUrlPath pageIsDynamic).hasValidParams then
            some (dynPR1 cfg u q normalizedUrlPath pageIsDynamic).params
          else some [])).1,
        u.interpolateDynamicPath srcPathname ps, u.interpolateDynamicPath url ps)
    | none =>
      ((dynRouteMatchesStep cfg u headers q matchedPath
          (dynPR1 cfg u q normalizedUrlPath pageIsDynamic)
          (if (dynPR1 cfg u q normalizedUrlPath pageIsDynamic).hasValidParams then
            some (dynPR1 cfg u q normalizedUrlPath pageIsDynamic).params
          else some [])).1,
        matchedPath, url)
  else (q, matchedPath, url)

/-- The closing locale block (lines 446-457): when no truthy `__nextLocale`
is present, fall back to the line-201 detected locale, else to the default
locale together with the inferred marker. -/
def finalLocale (q : Query) (i18n : Option LocaleAnalysisResult)
    (defaultLocale : Option String) : Query :=
  if jsTruthyQ q "__nextLocale" then q
  else if jsTruthyS (i18n.bind (fun r => r.detectedLocale)) then
    setA q "__nextLocale" (i18n.bind (fun r => r.detectedLocale))
  else if jsTruthyS defaultLocale then
    setA (setA q "__nextLocale" defaultLocale) "__nextInferredLocaleFromDefault" (some "1")
  else q

/-- Lines 346-458 of `MinimalRequestAdapter.adapt`: query-key normalization,
the dynamic-param block, `normalizeVercelUrl`, route-param key removal, the
final pathname assignment, and the closing locale block. -/
def stageC2 (cfg : MinimalConfig) (c : C1Out) : AdaptState :=
  let lp := normParamLoop cfg c.s.parsedURL.query
  let dyn := dynamicStage cfg c.utils c.s.req.headers c.s.req.url lp.1
    c.matchedPath c.normalizedUrlPath c.srcPathname c.pageIsDynamic
  let url3 :=
    if c.pageIsDynamic || c.didRewrite then
      c.utils.normalizeVercelUrl dyn.2.2 true
        (c.rewriteParamKeys ++ c.utils.defaultRouteRegexGroups)
    else dyn.2.2
  let q3 := lp.2.foldl delA dyn.1
  let q4 := finalLocale q3 c.i18n c.defaultLocale
  { req := { c.s.req with url := url3 },
    parsedURL := { c.s.parsedURL with pathname := some dyn.2.1, query := q4 } }

/-- `MinimalRequestAdapter.adapt` (lines 180-458), as the composition of the
embedded stages. -/
def minimalAdapt (cfg : MinimalConfig) (s0 : AdaptState) : Except String AdaptState :=
  match preStage cfg s0 with
  | Except.error e => Except.error e
  | Except.ok p => Except.ok (stageC2 cfg (stageC1 cfg (stageB cfg (extractStage cfg p))))

/-- Probe: the `preStage` output under a default fallback (used to phrase
theorem hypotheses about intermediate pipeline values). -/
def preOutOf (cfg : MinimalConfig) (s : AdaptState) : PreOut :=
  match preStage cfg s with
  | Except.ok p => p
  | Except.error _ => default

/-- Probe: whether `preStage` succeeded. -/
def preOk (cfg : MinimalConfig) (s : AdaptState) : Bool :=
  match preStage cfg s with
  | Except.ok _ => true
  | Except.error _ => false

/-- Probe: the state after lines 215-254. -/
def aOutOf (cfg : MinimalConfig) (s : AdaptState) : AOut :=
  extractStage cfg (preOutOf cfg s)

/-- Probe: the state after lines 256-317. -/
def bOutOf (cfg : MinimalConfig) (s : AdaptState) : BOut :=
  stageB cfg (aOutOf cfg s)

/-- Probe: the state after lines 319-345. -/
def cOutOf (cfg : MinimalConfig) (s : AdaptState) : C1Out :=
  stageC1 cfg (bOutOf cfg s)

theorem minimalAdapt_eq_of_preOk (cfg : MinimalConfig) (s : AdaptState)
    (h : preOk cfg s = true) :
    minimalAdapt cfg s = Except.ok (stageC2 cfg (cOutOf cfg s)) := by
  unfold minimalAdapt preOk at *
  unfold cOutOf bOutOf aOutOf preOutOf
  cases hp : preStage cfg s with
  | ok p => simp [hp]
  | error e => rw [hp] at h; simp at h

/-! ## `InternalRequestAdapter` embedding -/

/-- The `InvokeError` payload: `statusCode` is `Number(header)` (`none`
models `NaN`), `cause` carries the message of the `Error` cause (`none`
models a `null` cause), plus the query snapshot. -/
structure InvokeErrorModel where
  statusCode : Option Int
  cause : Option String
  query : Query
deriving DecidableEq, Inhabited

/-- Outcome of `InternalRequestAdapter.adapt`: normal return, an
`InvokeError` throw, or an unhandled built-in throw (a `JSON.parse` failure
on the `x-invoke-query` header at line 38, which is not wrapped).  Each
carries the envelope state at that point. -/
inductive InternalOutcome where
  | ok (s : AdaptState)
  | invoke (e : InvokeErrorModel) (s : AdaptState)
  | thrown (s : AdaptState)
deriving DecidableEq, Inhabited

/-- Built-ins and the base adapter consumed by `InternalRequestAdapter`:

* `jsonParseQuery` models `JSON.parse(decodeURIComponent(·))` as a JSON
  object (`none` = a throw);
* `jsonParseErrorMessage` models `JSON.parse` plus the `{message}`
  destructuring of the `x-invoke-error` header: `none` = a throw (caught),
  `some none` = parsed but `message` undefined, `some (some m)` = message;
* `numberParse` models `Number(·)` (`none` = `NaN`);
* `baseAdapt` is `BaseRequestAdapter.adapt` (`super.adapt`), which is not
  part of the sources under review. -/
structure InternalConfig where
  jsonParseQuery : String → Option Query
  jsonParseErrorMessage : String → Option (Option String)
  numberParse : String → Option Int
  baseAdapt : AdaptState → AdaptState

/-- Lines 29-33: delete every query key outside the internal namespaces
(keep keys starting with `__next` or `_next`). -/
def stripInternalQuery (q : Query) : Query :=
  q.filter (fun kv => kv.1.startsWith "__next" || kv.1.startsWith "_next")

/-- The `Error` cause computed at lines 45-53: `new Error(message)` on a
parsed `{message}`, `new Error()` (empty message) when parsing or
destructuring throws or `message` is undefined, `null` without the header. -/
def invokeCause (cfg : InternalConfig) (h : Headers) : Option String :=
  match getA h "x-invoke-error" with
  | some (HVal.str es) =>
    match cfg.jsonParseErrorMessage es with
    | some (some m) => some m
    | some none => some ""
    | none => some ""
  | _ => none

/-- Lines 62-68 of `InternalRequestAdapter.adapt`: overwrite the pathname
with the invoke path when it differs, then run the base adapter
(`super.adapt`). -/
def internalAfterBase (cfg : InternalConfig) (s1 : AdaptState) (p : String) :
    AdaptState :=
  cfg.baseAdapt
    (if s1.parsedURL.pathname ≠ some p then
      { s1 with parsedURL := { s1.parsedURL with pathname := some p } }
    else s1)

/-- Lines 58-73 of `InternalRequestAdapter.adapt`: remember the original
pathname, overwrite it with the invoke path when it differs, run the base
adapter, and record `rewroteURL` metadata iff the pathname after the base
adapt differs from the original. -/
def internalAdaptRewrite (cfg : InternalConfig) (s1 : AdaptState) (p : String) :
    InternalOutcome :=
  if s1.parsedURL.pathname ≠ (internalAfterBase cfg s1 p).parsedURL.pathname then
    InternalOutcome.ok
      { internalAfterBase cfg s1 p with req := { (internalAfterBase cfg s1 p).req with
          meta := setA (internalAfterBase cfg s1 p).req.meta "rewroteURL"
            (match (internalAfterBase cfg s1 p).parsedURL.pathname with
             | some ps => MetaVal.str ps
             | none => MetaVal.nullV) } }
  else InternalOutcome.ok (internalAfterBase cfg s1 p)

/-- Lines 41-74 of `InternalRequestAdapter.adapt`, after the query has been
stripped and merged to `q2` (the headers are untouched by the query
mutation): throw `InvokeError` when `x-invoke-status` is a string;
otherwise proceed to the pathname rewrite and the base adapt. -/
def internalAdaptCont (cfg : InternalConfig) (s : AdaptState) (p : String)
    (q2 : Query) : InternalOutcome :=
  match getA s.req.headers "x-invoke-status" with
  | some (HVal.str st) =>
    InternalOutcome.invoke
      { statusCode := cfg.numberParse st, cause := invokeCause cfg s.req.headers,
        query := q2 }
      { s with parsedURL := { s.parsedURL with query := q2 } }
  | _ =>
    internalAdaptRewrite cfg { s with parsedURL := { s.parsedURL with query := q2 } } p

/-- `InternalRequestAdapter.adapt` (lines 21-74). -/
def internalAdapt (cfg : InternalConfig) (s : AdaptState) : InternalOutcome :=
  match getA s.req.headers "x-invoke-path" with
  | some (HVal.str p) =>
    if p = "" then InternalOutcome.ok s
    else
      let q1 := stripInternalQuery s.parsedURL.query
      match getA s.req.headers "x-invoke-query" with
      | some (HVal.str qs) =>
        match cfg.jsonParseQuery qs with
        | some pairs => internalAdaptCont cfg s p (assignQ q1 pairs)
        | none =>
          InternalOutcome.thrown { s with parsedURL := { s.parsedURL with query := q1 } }
      | _ => internalAdaptCont cfg s p q1
  | _ => InternalOutcome.ok s

/-- The parsed `x-invoke-query` object as `adapt` merges it: `some []` when
the header is absent or not a string (no merge happens), the `JSON.parse`
result otherwise (`none` = the parse throws). -/
def invokeQueryPairs (cfg : InternalConfig) (h : Headers) : Option Query :=
  match getA h "x-invoke-query" with
  | some (HVal.str qs) => cfg.jsonParseQuery qs
  | _ => some []

/-! ## Shared concrete fixtures for witnesses and counterexamples -/

/-- A trivial utils bundle: rewrites change nothing, no params resolve. -/
def testUtils : Utils where
  handleRewrites := fun _ _ pu => (pu, [])
  normalizeDynamicRouteParams := fun _ _ => { hasValidParams := false, params := [] }
  dynamicRouteMatcher := none
  getParamsFromRouteMatches := fun _ _ => ([], none)
  interpolateDynamicPath := fun p _ => p
  normalizeVercelUrl := fun u _ _ => u
  defaultRouteMatches := none
  defaultRouteRegexGroups := []

/-- No normalizer configured. -/
def testNormalizers : Normalizers where
  basePath := none
  action := none
  postponed := none
  rsc := none
  prefetchRSC := none
  data := none
  i18n := none

/-- A minimal concrete adapter configuration (pages-router-style, no i18n);
`urlPathnameOf` is the identity since the fixture URLs carry no query
string. -/
def testCfg : MinimalConfig where
  normalizers := testNormalizers
  appEnabled := false
  i18nProvider := none
  matchersMatch := fun _ _ => none
  getUtils := fun _ _ => testUtils
  urlPathnameOf := fun s => s
  denormalizePagePath := fun s => s
  isDynamicRoute := fun _ => false
  normalizeNextQueryParam := fun _ => none
  getHostname := fun _ _ => none
  utf8Decode := fun _ => ""
  stripFlightHeaders := fun h => h
  parseUrl := fun u => (some u, "")
  formatUrl := fun pr => jsStrOfOpt pr.1

/-- Internal-adapter builtins used by the fixtures: `Number` and the two
JSON parses pinned at the concrete inputs the scenarios use. -/
def testInternalCfg : InternalConfig where
  jsonParseQuery := fun _ => none
  jsonParseErrorMessage := fun s =>
    if s = "\x7b\"message\":\"boom\"\x7d" then some (some "boom") else none
  numberParse := fun s => if s = "500" then some 500 else none
  baseAdapt := fun t => t

/-! ## Claim C10 -/

/-- Claim C10: when the `x-invoke-path` header is absent or not a string,
`InternalRequestAdapter.adapt` returns immediately with the whole envelope
(query, pathname, metadata) unchanged and raises nothing, even if
`x-invoke-status` / `x-invoke-error` headers are present. -/
theorem c10_invoke_path_guard (cfg : InternalConfig) (s : AdaptState)
    (h : match getA s.req.headers "x-invoke-path" with
         | some (HVal.str _) => False
         | _ => True) :
    internalAdapt cfg s = InternalOutcome.ok s := by
  unfold internalAdapt
  cases hx : getA s.req.headers "x-invoke-path" with
  | none => rfl
  | some v =>
    cases v with
    | str p => rw [hx] at h; exact h.elim
    | list l => rfl

/-- A request with no `x-invoke-path` but with invoke status and error
headers and a populated query. -/
def c10State : AdaptState where
  req :=
    { headers := [("x-invoke-status", HVal.str "500"),
        ("x-invoke-error", HVal.str "\x7b\"message\":\"boom\"\x7d")],
      url := "/a", method := "GET", body := [], meta := [] }
  parsedURL := { pathname := some "/a", hostname := none, query := [("user", some "1")] }

/-- Witness for C10 at a concrete request. -/
theorem c10_witness : internalAdapt testInternalCfg c10State = InternalOutcome.ok c10State :=
  c10_invoke_path_guard testInternalCfg c10State (by exact True.intro)

/-! ## Claim C1 -/

/-- Claim C1 counterexample: a request whose headers carry exactly
`x-invoke-status: "500"` and `x-invoke-error: '{"message":"boom"}'` but no
`x-invoke-path`.  The claim requires `adapt` to raise an `InvokeError`;
the code returns normally (line 25 short-circuits before the status
check), leaving the envelope untouched. -/
theorem c1_counterexample :
    internalAdapt testInternalCfg c10State ≠
        InternalOutcome.invoke
          { statusCode := some 500, cause := some "boom",
            query := c10State.parsedURL.query } c10State ∧
      internalAdapt testInternalCfg c10State = InternalOutcome.ok c10State := by
  constructor
  · intro h
    exact absurd h (by decide)
  · decide

/-- Claim C1 (amended): for every request that also carries a nonempty
string `x-invoke-path` header, and whose `x-invoke-query` header (when
present as a string) parses as a JSON object, headers
`x-invoke-status: "500"` and `x-invoke-error: '{"message":"boom"}'` make
`adapt` raise an `InvokeError` with `statusCode = 500` and a cause with
message `"boom"`, before the pathname rewrite and the base adapt run: the
envelope at the raise is unchanged except that the query was stripped of
non-internal keys and merged with the parsed `x-invoke-query` object. -/
theorem c1_amended (cfg : InternalConfig) (s : AdaptState) (p : String) (pairs : Query)
    (hp : getA s.req.headers "x-invoke-path" = some (HVal.str p))
    (hpne : p ≠ "")
    (hst : getA s.req.headers "x-invoke-status" = some (HVal.str "500"))
    (hnum : cfg.numberParse "500" = some 500)
    (herr : getA s.req.headers "x-invoke-error"
      = some (HVal.str "\x7b\"message\":\"boom\"\x7d"))
    (hmsg : cfg.jsonParseErrorMessage "\x7b\"message\":\"boom\"\x7d" = some (some "boom"))
    (hq : invokeQueryPairs cfg s.req.headers = some pairs) :
    internalAdapt cfg s =
      InternalOutcome.invoke
        { statusCode := some 500, cause := some "boom",
          query := assignQ (stripInternalQuery s.parsedURL.query) pairs }
        { s with parsedURL := { s.parsedURL with
            query := assignQ (stripInternalQuery s.parsedURL.query) pairs } } := by
  have hcause : invokeCause cfg s.req.headers = some "boom" := by
    unfold invokeCause
    rw [herr]
    show (match cfg.jsonParseErrorMessage "\x7b\"message\":\"boom\"\x7d" with
          | some (some m) => some m
          | some none => some ""
          | none => some "") = some "boom"
    rw [hmsg]
  have hcont : ∀ q2 : Query, internalAdaptCont cfg s p q2 =
      InternalOutcome.invoke
        { statusCode := some 500, cause := some "boom", query := q2 }
        { s with parsedURL := { s.parsedURL with query := q2 } } := by
    intro q2
    unfold internalAdaptCont
    rw [hst]
    show InternalOutcome.invoke
        { statusCode := cfg.numberParse "500", cause := invokeCause cfg s.req.headers,
          query := q2 } _ = _
    rw [hnum, hcause]
  unfold internalAdapt
  rw [hp]
  show (if p = "" then InternalOutcome.ok s else _) = _
  rw [if_neg hpne]
  unfold invokeQueryPairs at hq
  cases hx : getA s.req.headers "x-invoke-query" with
  | none =>
    rw [hx] at hq
    have hpairs : pairs = [] := by simpa using hq.symm
    subst hpairs
    exact hcont (stripInternalQuery s.parsedURL.query)
  | some v =>
    cases v with
    | str qs =>
      rw [hx] at hq
      have hq' : cfg.jsonParseQuery qs = some pairs := by simpa using hq
      show (match cfg.jsonParseQuery qs with
            | some pairs' =>
              internalAdaptCont cfg s p (assignQ (stripInternalQuery s.parsedURL.query) pairs')
            | none =>
              InternalOutcome.thrown
                { s with parsedURL := { s.parsedURL with
                    query := stripInternalQuery s.parsedURL.query } }) = _
      rw [hq']
      exact hcont (assignQ (stripInternalQuery s.parsedURL.query) pairs)
    | list l =>
      rw [hx] at hq
      have hpairs : pairs = [] := by simpa using hq.symm
      subst hpairs
      exact hcont (stripInternalQuery s.parsedURL.query)

/-- A request satisfying the amended C1 hypotheses (the query is empty; the
strip and the merge are thus trivial here, which the theorem's conclusion
makes explicit). -/
def c1wState : AdaptState where
  req :=
    { headers := [("x-invoke-path", HVal.str "/dest"),
        ("x-invoke-status", HVal.str "500"),
        ("x-invoke-error", HVal.str "\x7b\"message\":\"boom\"\x7d")],
      url := "/a", method := "GET", body := [], meta := [] }
  parsedURL := { pathname := some "/a", hostname := none, query := [] }

/-- Witness for the amended C1 at a concrete request. -/
theorem c1_witness :
    internalAdapt testInternalCfg c1wState =
      InternalOutcome.invoke
        { statusCode := some 500, cause := some "boom", query := [] }
        c1wState :=
  c1_amended testInternalCfg c1wState "/dest" [] rfl (by decide) rfl rfl rfl rfl rfl

/-! ## Claim C8 -/

/-- A request carrying `x-invoke-status` and a malformed `x-invoke-error`
but no `x-invoke-path`. -/
def c8xState : AdaptState where
  req :=
    { headers := [("x-invoke-status", HVal.str "500"),
        ("x-invoke-error", HVal.str "not json")],
      url := "/a", method := "GET", body := [], meta := [] }
  parsedURL := { pathname := some "/a", hostname := none, query := [] }

/-- Claim C8 counterexample: with `x-invoke-status: "500"` and
`x-invoke-error: "not json"` but no `x-invoke-path`, the claim requires an
`InvokeError` raise; the code returns normally (line 25 short-circuits
before the status check). -/
theorem c8_counterexample :
    internalAdapt testInternalCfg c8xState = InternalOutcome.ok c8xState ∧
      internalAdapt testInternalCfg c8xState ≠
        InternalOutcome.invoke
          { statusCode := some 500, cause := some "",
            query := c8xState.parsedURL.query } c8xState := by
  constructor
  · decide
  · intro h
    exact absurd h (by decide)

/-- Claim C8 (amended): for every request that also carries a nonempty
string `x-invoke-path` header (and whose `x-invoke-query` header, when a
string, parses), an `x-invoke-status` string header together with an
`x-invoke-error` header whose value fails to parse as JSON makes `adapt`
raise an `InvokeError` whose cause is an `Error` with an empty message —
the parse failure is swallowed by the `catch`, never propagated (the
outcome is `invoke`, not `thrown`). -/
theorem c8_amended (cfg : InternalConfig) (s : AdaptState) (p st es : String)
    (pairs : Query)
    (hp : getA s.req.headers "x-invoke-path" = some (HVal.str p))
    (hpne : p ≠ "")
    (hst : getA s.req.headers "x-invoke-status" = some (HVal.str st))
    (herr : getA s.req.headers "x-invoke-error" = some (HVal.str es))
    (hbad : cfg.jsonParseErrorMessage es = none)
    (hq : invokeQueryPairs cfg s.req.headers = some pairs) :
    internalAdapt cfg s =
      InternalOutcome.invoke
        { statusCode := cfg.numberParse st, cause := some "",
          query := assignQ (stripInternalQuery s.parsedURL.query) pairs }
        { s with parsedURL := { s.parsedURL with
            query := assignQ (stripInternalQuery s.parsedURL.query) pairs } } := by
  have hcause : invokeCause cfg s.req.headers = some "" := by
    unfold invokeCause
    rw [herr]
    show (match cfg.jsonParseErrorMessage es with
          | some (some m) => some m
          | some none => some ""
          | none => some "") = some ""
    rw [hbad]
  have hcont : ∀ q2 : Query, internalAdaptCont cfg s p q2 =
      InternalOutcome.invoke
        { statusCode := cfg.numberParse st, cause := some "", query := q2 }
        { s with parsedURL := { s.parsedURL with query := q2 } } := by
    intro q2
    unfold internalAdaptCont
    rw [hst]
    show InternalOutcome.invoke
        { statusCode := cfg.numberParse st, cause := invokeCause cfg s.req.headers,
          query := q2 } _ = _
    rw [hcause]
  unfold internalAdapt
  rw [hp]
  show (if p = "" then InternalOutcome.ok s else _) = _
  rw [if_neg hpne]
  unfold invokeQueryPairs at hq
  cases hx : getA s.req.headers "x-invoke-query" with
  | none =>
    rw [hx] at hq
    have hpairs : pairs = [] := by simpa using hq.symm
    subst hpairs
    exact hcont (stripInternalQuery s.parsedURL.query)
  | some v =>
    cases v with
    | str qs =>
      rw [hx] at hq
      have hq' : cfg.jsonParseQuery qs = some pairs := by simpa using hq
      show (match cfg.jsonParseQuery qs with
            | some pairs' =>
              internalAdaptCont cfg s p (assignQ (stripInternalQuery s.parsedURL.query) pairs')
            | none =>
              InternalOutcome.thrown
                { s with parsedURL := { s.parsedURL with
                    query := stripInternalQuery s.parsedURL.query } }) = _
      rw [hq']
      exact hcont (assignQ (stripInternalQuery s.parsedURL.query) pairs)
    | list l =>
      rw [hx] at hq
      have hpairs : pairs = [] := by simpa using hq.symm
      subst hpairs
      exact hcont (stripInternalQuery s.parsedURL.query)

/-- A request satisfying the amended C8 hypotheses. -/
def c8wState : AdaptState where
  req :=
    { headers := [("x-invoke-path", HVal.str "/dest"),
        ("x-invoke-status", HVal.str "500"),
        ("x-invoke-error", HVal.str "not json")],
      url := "/a", method := "GET", body := [], meta := [] }
  parsedURL := { pathname := some "/a", hostname := none, query := [] }

/-- Witness for the amended C8 at a concrete request. -/
theorem c8_witness :
    internalAdapt testInternalCfg c8wState =
      InternalOutcome.invoke
        { statusCode := some 500, cause := some "", query := [] }
        c8wState :=
  c8_amended testInternalCfg c8wState "/dest" "500" "not json" [] rfl (by decide)
    rfl rfl rfl rfl

/-! ## Claim C2 -/

/-- A dynamic-segment test: only `"/dyn"` is syntactically dynamic. -/
def c2IsDyn : String → Bool := fun p => p == "/dyn"

/-- A route matcher that matches the static candidate `"/a"` to the dynamic
route definition `"/b"` with resolved params. -/
def c2Matcher : String → Option LocaleAnalysisResult → Option RouteMatch :=
  fun p _ =>
    if p == "/a" then
      some { definitionPathname := "/b", params := some [("x", some "1")] }
    else none

/-- A route matcher that claims a match for every candidate. -/
def c2MatcherAll : String → Option LocaleAnalysisResult → Option RouteMatch :=
  fun _ _ => some { definitionPathname := "/z", params := none }

/-- Claim C2 counterexample.  The claim says: no route-matcher lookup for a
source pathname without dynamic segments, and a lookup (with replacement on
match) for one with dynamic segments.  The code (lines 299-310) does the
opposite:

* `"/a"` has no dynamic segments, yet the result adopts the matcher's
  definition pathname `"/b"` and its re-derived dynamicness — a lookup
  visibly occurred;
* `"/dyn"` has dynamic segments and the matcher offers `"/z"`, yet the
  result ignores it — no lookup occurred. -/
theorem c2_counterexample :
    c2IsDyn "/a" = false ∧
      resolveSrcPathname c2IsDyn c2Matcher "/a" none = ("/b", true) ∧
      c2IsDyn "/dyn" = true ∧
      resolveSrcPathname c2IsDyn c2MatcherAll "/dyn" none = ("/dyn", true) := by
  refine ⟨rfl, ?_, rfl, ?_⟩ <;> decide

/-- Claim C2 (amended): in `MinimalRequestAdapter.adapt`, for every matched
path whose denormalized source pathname HAS dynamic segments, no
route-matcher lookup occurs (the result is the same for every matcher);
for every source pathname WITHOUT dynamic segments, the route matcher is
queried with the candidate pathname and the locale decision, and on a match
the source pathname is replaced by the match's definition pathname with
dynamicness re-derived from whether the match carried resolved params. -/
theorem c2_amended (isDyn : String → Bool)
    (mm mm' : String → Option LocaleAnalysisResult → Option RouteMatch)
    (p : String) (lar : Option LocaleAnalysisResult) :
    (isDyn p = true →
      resolveSrcPathname isDyn mm p lar = (p, true) ∧
        resolveSrcPathname isDyn mm p lar = resolveSrcPathname isDyn mm' p lar)
    ∧ (isDyn p = false →
        resolveSrcPathname isDyn mm p lar =
          match mm p lar with
          | some m => (m.definitionPathname, m.params.isSome)
          | none => (p, false)) := by
  constructor
  · intro h
    constructor <;> (unfold resolveSrcPathname; simp [h])
  · intro h
    unfold resolveSrcPathname
    cases hm : mm p lar with
    | some m => simp [h, hm]
    | none => simp [h, hm]

/-- Witness for the amended C2 at concrete matchers and pathnames. -/
theorem c2_witness :
    resolveSrcPathname c2IsDyn c2MatcherAll "/dyn" none = ("/dyn", true) ∧
      resolveSrcPathname c2IsDyn c2Matcher "/a" none = ("/b", true) := by
  constructor
  · exact ((c2_amended c2IsDyn c2MatcherAll c2Matcher "/dyn" none).1 (by decide)).1
  · exact (c2_amended c2IsDyn c2Matcher c2MatcherAll "/a" none).2 (by decide)

/-! ## Claim C4 -/

theorem firstMatchNormalize_append (l1 : List Normalizer) (n : Normalizer)
    (l2 : List Normalizer) (p : String)
    (h1 : ∀ m ∈ l1, m.matchFn p = false) (h2 : n.matchFn p = true) :
    firstMatchNormalize (l1 ++ n :: l2) p = n.normalize p true := by
  induction l1 with
  | nil => simp [firstMatchNormalize, h2]
  | cons m rest ih =>
    have hm : m.matchFn p = false := h1 m (by simp)
    simp only [List.cons_append, firstMatchNormalize, hm, Bool.false_eq_true, if_false]
    exact ih (fun x hx => h1 x (by simp [hx]))

theorem firstMatchNormalize_none (l : List Normalizer) (p : String)
    (h : ∀ m ∈ l, m.matchFn p = false) : firstMatchNormalize l p = p := by
  induction l with
  | nil => rfl
  | cons m rest ih =>
    have hm : m.matchFn p = false := h m (by simp)
    simp only [firstMatchNormalize, hm, Bool.false_eq_true, if_false]
    exact ih (fun x hx => h x (by simp [hx]))

/-- Claim C4: the shape-normalization step applies the normalizer of the
first matching shape in the fixed order data, postponed, prefetchRSC, rsc
(plain fragment), action; a lower-priority shape's normalization is never
applied when a higher-priority matcher also matches (in particular the
prefetch-fragment normalizer wins over the plain-fragment one), and a
pathname matched by no configured shape is returned unchanged. -/
theorem c4_shape_precedence (ns : Normalizers) (p : String) :
    ((∀ m ∈ orderedNormalizers ns, m.matchFn p = false) → normalizeShape ns p = p)
    ∧ (∀ l1 n l2, orderedNormalizers ns = l1 ++ n :: l2 →
        (∀ m ∈ l1, m.matchFn p = false) → n.matchFn p = true →
        normalizeShape ns p = n.normalize p true)
    ∧ (∀ pn, ns.prefetchRSC = some pn → pn.matchFn p = true →
        (∀ dn, ns.data = some dn → dn.matchFn p = false) →
        (∀ po, ns.postponed = some po → po.matchFn p = false) →
        normalizeShape ns p = pn.normalize p true) := by
  refine ⟨?_, ?_, ?_⟩
  · intro h
    exact firstMatchNormalize_none _ p h
  · intro l1 n l2 heq h1 h2
    unfold normalizeShape
    rw [heq]
    exact firstMatchNormalize_append l1 n l2 p h1 h2
  · intro pn hpn hmatch hdata hpost
    have heq : orderedNormalizers ns =
        (ns.data.toList ++ ns.postponed.toList) ++ pn :: (ns.rsc.toList ++ ns.action.toList) := by
      unfold orderedNormalizers
      rw [hpn]
      simp [List.append_assoc]
    have h1 : ∀ m ∈ ns.data.toList ++ ns.postponed.toList, m.matchFn p = false := by
      intro m hm
      rcases List.mem_append.mp hm with hd | hp2
      · cases hdd : ns.data with
        | none => rw [hdd] at hd; simp at hd
        | some dn =>
          rw [hdd] at hd
          simp at hd
          rw [hd]
          exact hdata dn hdd
      · cases hpp : ns.postponed with
        | none => rw [hpp] at hp2; simp at hp2
        | some po =>
          rw [hpp] at hp2
          simp at hp2
          rw [hp2]
          exact hpost po hpp
    unfold normalizeShape
    rw [heq]
    exact firstMatchNormalize_append _ pn _ p h1 hmatch

/-- Prefetch-fragment normalizer matching everything. -/
def c4PN : Normalizer where
  matchFn := fun _ => true
  normalize := fun p _ => p ++ ".prefetch"

/-- Plain-fragment normalizer also matching everything. -/
def c4RN : Normalizer where
  matchFn := fun _ => true
  normalize := fun p _ => p ++ ".rsc"

/-- A normalizers record where the prefetch and plain fragment shapes
overlap on every pathname. -/
def c4NS : Normalizers where
  basePath := none
  action := none
  postponed := none
  rsc := some c4RN
  prefetchRSC := some c4PN
  data := none
  i18n := none

/-- Witness for C4: with both fragment shapes matching, the prefetch
normalization is applied, not the plain-fragment one. -/
theorem c4_witness : normalizeShape c4NS "/x" = "/x.prefetch" := by
  have h := (c4_shape_precedence c4NS "/x").2.2 c4PN rfl rfl
    (fun dn hdn => by cases hdn) (fun po hpo => by cases hpo)
  exact h

/-! ## Claim C9 -/

theorem minimalAdapt_error (cfg : MinimalConfig) (s : AdaptState) (e : String)
    (h : preStage cfg s = Except.error e) : minimalAdapt cfg s = Except.error e := by
  unfold minimalAdapt
  rw [h]

/-- Claim C9: `MinimalRequestAdapter.adapt` fails with a fatal invariant
error (an unstructured `Error`, a different signal than the structured
`InvokeError` of the internal adapter) whenever the `x-matched-path` header
is absent or not a string, and whenever the parsed pathname is falsy
(absent or empty); `attachRSCRequestMetadata` likewise throws on a falsy
pathname.  In each case `adapt` returns the error directly: no later stage
runs. -/
theorem c9_invariant_errors (cfg : MinimalConfig) (s : AdaptState) :
    ((match getA s.req.headers "x-matched-path" with
      | some (HVal.str _) => False
      | _ => True) →
      minimalAdapt cfg s =
        Except.error "Invariant: x-matched-path header is not present but we are in minimal mode")
    ∧ (∀ mp, getA s.req.headers "x-matched-path" = some (HVal.str mp) → mp ≠ "" →
        jsTruthyS s.parsedURL.pathname = false →
        minimalAdapt cfg s = Except.error "Invariant: pathname must be set")
    ∧ (jsTruthyS s.parsedURL.pathname = false →
        attachRSCRequestMetadata cfg s = Except.error "Invariant: pathname is required") := by
  refine ⟨?_, ?_, ?_⟩
  · intro h
    apply minimalAdapt_error
    unfold preStage
    cases hx : getA s.req.headers "x-matched-path" with
    | none => rfl
    | some v =>
      cases v with
      | str mp => rw [hx] at h; exact h.elim
      | list l => rfl
  · intro mp hmp hne hfal
    apply minimalAdapt_error
    unfold preStage
    simp only [hmp]
    rw [if_neg hne, hfal]
    rfl
  · intro hfal
    unfold attachRSCRequestMetadata
    rw [hfal]
    rfl

/-- A request with no `x-matched-path` header. -/
def c9s1 : AdaptState where
  req := { headers := [], url := "/foo", method := "GET", body := [], meta := [] }
  parsedURL := { pathname := some "/foo", hostname := none, query := [] }

/-- A request with a matched-path header but a `null` parsed pathname. -/
def c9s2 : AdaptState where
  req :=
    { headers := [("x-matched-path", HVal.str "/foo")],
      url := "/foo", method := "GET", body := [], meta := [] }
  parsedURL := { pathname := none, hostname := none, query := [] }

/-- Witness for C9 at concrete requests. -/
theorem c9_witness :
    minimalAdapt testCfg c9s1 =
        Except.error "Invariant: x-matched-path header is not present but we are in minimal mode" ∧
      minimalAdapt testCfg c9s2 = Except.error "Invariant: pathname must be set" ∧
      attachRSCRequestMetadata testCfg c9s2 = Except.error "Invariant: pathname is required" := by
  refine ⟨?_, ?_, ?_⟩
  · exact (c9_invariant_errors testCfg c9s1).1 (by exact True.intro)
  · exact (c9_invariant_errors testCfg c9s2).2.1 "/foo" rfl (by decide) rfl
  · exact (c9_invariant_errors testCfg c9s2).2.2 rfl

/-! ## Propagation lemmas through the pipeline stages -/

theorem attachRSCTail_meta (cfg : MinimalConfig) (s : AdaptState) :
    (attachRSCTail cfg s).req.meta = s.req.meta := by
  simp only [attachRSCTail]
  split <;> rfl

theorem attachPrefetchBranch_meta (cfg : MinimalConfig) (s : AdaptState) (K : String)
    (h1 : K ≠ "isRSCRequest") (h2 : K ≠ "isPrefetchRSCRequest") :
    getA (attachPrefetchBranch cfg s).req.meta K = getA s.req.meta K := by
  show getA (setA (setA s.req.meta "isRSCRequest" (MetaVal.bool true))
    "isPrefetchRSCRequest" (MetaVal.bool true)) K = getA s.req.meta K
  rw [getA_setA_other _ _ _ _ h2, getA_setA_other _ _ _ _ h1]

theorem attachRSCBranch_meta (cfg : MinimalConfig) (s : AdaptState) (K : String)
    (h1 : K ≠ "isRSCRequest") :
    getA (attachRSCBranch cfg s).req.meta K = getA s.req.meta K := by
  show getA (setA s.req.meta "isRSCRequest" (MetaVal.bool true)) K = getA s.req.meta K
  rw [getA_setA_other _ _ _ _ h1]

theorem attachRSC_meta_other (cfg : MinimalConfig) (s s' : AdaptState) (K : String)
    (h : attachRSCRequestMetadata cfg s = Except.ok s')
    (h1 : K ≠ "isRSCRequest") (h2 : K ≠ "isPrefetchRSCRequest") :
    getA s'.req.meta K = getA s.req.meta K := by
  unfold attachRSCRequestMetadata at h
  split at h
  · cases h
  · split at h
    · cases h; rfl
    · split at h
      · cases h
        rw [attachRSCTail_meta]
        exact attachPrefetchBranch_meta cfg s K h1 h2
      · split at h
        · cases h
          rw [attachRSCTail_meta]
          exact attachRSCBranch_meta cfg s K h1
        · cases h; rfl

theorem preBasePath_meta (cfg : MinimalConfig) (s0 : AdaptState) :
    (preBasePath cfg s0).req.meta = s0.req.meta := rfl

theorem preIndexNormalize_meta (cfg : MinimalConfig) (s2 : AdaptState) :
    (preIndexNormalize cfg s2).req.meta = s2.req.meta := by
  unfold preIndexNormalize
  split <;> rfl

theorem preStage_meta_other (cfg : MinimalConfig) (s : AdaptState) (p : PreOut) (K : String)
    (h : preStage cfg s = Except.ok p)
    (h1 : K ≠ "isRSCRequest") (h2 : K ≠ "isPrefetchRSCRequest") :
    getA p.s.req.meta K = getA s.req.meta K := by
  unfold preStage at h
  split at h
  case h_1 mp =>
    split at h
    · cases h
    · split at h
      · cases h
      · split at h
        · cases h
        · rename_i s2 hat
          cases h
          show getA (preIndexNormalize cfg s2).req.meta K = getA s.req.meta K
          rw [preIndexNormalize_meta]
          have hm := attachRSC_meta_other cfg _ s2 K hat h1 h2
          rw [hm, preBasePath_meta]
  case h_2 => cases h

theorem extractStage_meta_other (cfg : MinimalConfig) (p : PreOut) (K : String)
    (h : K ≠ "postponed") :
    getA (extractStage cfg p).s.req.meta K = getA p.s.req.meta K := by
  unfold extractStage
  split
  · rfl
  · split
    · show getA (setA p.s.req.meta "postponed" _) K = getA p.s.req.meta K
      rw [getA_setA_other _ _ _ _ h]
    · rfl

theorem extractStage_query_other (cfg : MinimalConfig) (p : PreOut) (K : String)
    (h : K ≠ "__nextDataReq") :
    getA (extractStage cfg p).s.parsedURL.query K = getA p.s.parsedURL.query K := by
  unfold extractStage
  split
  · show getA (setA p.s.parsedURL.query "__nextDataReq" (some "1")) K
      = getA p.s.parsedURL.query K
    rw [getA_setA_other _ _ _ _ h]
  · split <;> rfl

theorem extractStage_pathname (cfg : MinimalConfig) (p : PreOut) :
    (extractStage cfg p).s.parsedURL.pathname = p.s.parsedURL.pathname := by
  unfold extractStage
  split
  · rfl
  · split <;> rfl

theorem extractStage_headers (cfg : MinimalConfig) (p : PreOut) :
    (extractStage cfg p).s.req.headers = p.s.req.headers := by
  unfold extractStage
  split
  · rfl
  · split <;> rfl

theorem stageB_req (cfg : MinimalConfig) (a : AOut) :
    (stageB cfg a).s.req = a.s.req := rfl

theorem stageB_pathname (cfg : MinimalConfig) (a : AOut) :
    (stageB cfg a).s.parsedURL.pathname = a.s.parsedURL.pathname := rfl

theorem stageB_lar (cfg : MinimalConfig) (a : AOut) :
    (stageB cfg a).lar = cfg.i18nProvider.map
      (fun pr => pr.analyze (normalizeShape cfg.normalizers a.matchedPath)
        (stageB cfg a).defaultLocale) := rfl

/-- The query after the locale block (lines 281-291), phrased through the
stage output. -/
theorem stageB_query (cfg : MinimalConfig) (a : AOut) :
    (stageB cfg a).s.parsedURL.query =
      match (stageB cfg a).lar with
      | some r =>
        if r.inferredFromDefault then
          setA (setA a.s.parsedURL.query "__nextLocale" r.detectedLocale)
            "__nextInferredLocaleFromDefault" (some "1")
        else
          delA (setA a.s.parsedURL.query "__nextLocale" r.detectedLocale)
            "__nextInferredLocaleFromDefault"
      | none => a.s.parsedURL.query := by
  unfold stageB
  cases hp : cfg.i18nProvider with
  | none => rfl
  | some pr => rfl

theorem stageB_query_other (cfg : MinimalConfig) (a : AOut) (K : String)
    (h1 : K ≠ "__nextLocale") (h2 : K ≠ "__nextInferredLocaleFromDefault") :
    getA (stageB cfg a).s.parsedURL.query K = getA a.s.parsedURL.query K := by
  rw [stageB_query]
  cases (stageB cfg a).lar with
  | none => rfl
  | some r =>
    dsimp only
    by_cases hr : r.inferredFromDefault
    · rw [if_pos hr, getA_setA_other _ _ _ _ h2, getA_setA_other _ _ _ _ h1]
    · rw [if_neg hr, getA_delA_other _ _ _ h2, getA_setA_other _ _ _ _ h1]

theorem stageC1_headers (cfg : MinimalConfig) (b : BOut) :
    (stageC1 cfg b).s.req.headers = b.s.req.headers := rfl

theorem stageC1_url (cfg : MinimalConfig) (b : BOut) :
    (stageC1 cfg b).s.req.url = b.s.req.url := rfl

theorem stageC1_utils (cfg : MinimalConfig) (b : BOut) :
    (stageC1 cfg b).utils = cfg.getUtils b.pageIsDynamic b.srcPathname := rfl

theorem stageC1_parsedURL (cfg : MinimalConfig) (b : BOut) :
    (stageC1 cfg b).s.parsedURL =
      ((cfg.getUtils b.pageIsDynamic b.srcPathname).handleRewrites
        b.s.req.headers b.s.req.url (preRewritePUrl b)).1 := rfl

/-- The metadata after the rewrite stage (lines 338-345). -/
theorem stageC1_meta (cfg : MinimalConfig) (b : BOut) :
    (stageC1 cfg b).s.req.meta =
      if ((preRewritePUrl b).pathname ≠ (stageC1 cfg b).s.parsedURL.pathname : Prop)
          && jsTruthyS (stageC1 cfg b).s.parsedURL.pathname then
        setA b.s.req.meta "rewroteURL"
          (MetaVal.str (jsStrOfOpt (stageC1 cfg b).s.parsedURL.pathname))
      else b.s.req.meta := rfl

theorem stageC1_meta_other (cfg : MinimalConfig) (b : BOut) (K : String)
    (h : K ≠ "rewroteURL") :
    getA (stageC1 cfg b).s.req.meta K = getA b.s.req.meta K := by
  rw [stageC1_meta]
  split
  · rw [getA_setA_other _ _ _ _ h]
  · rfl

theorem stageC2_meta (cfg : MinimalConfig) (c : C1Out) :
    (stageC2 cfg c).req.meta = c.s.req.meta := rfl

theorem stageC2_headers (cfg : MinimalConfig) (c : C1Out) :
    (stageC2 cfg c).req.headers = c.s.req.headers := rfl

/-- The final query of `adapt`, phrased through the stage helpers. -/
theorem stageC2_query (cfg : MinimalConfig) (c : C1Out) :
    (stageC2 cfg c).parsedURL.query =
      finalLocale
        ((normParamLoop cfg c.s.parsedURL.query).2.foldl delA
          (dynamicStage cfg c.utils c.s.req.headers c.s.req.url
            (normParamLoop cfg c.s.parsedURL.query).1
            c.matchedPath c.normalizedUrlPath c.srcPathname c.pageIsDynamic).1)
        c.i18n c.defaultLocale := rfl

theorem normParamFold_getA (cfg : MinimalConfig) (K : String)
    (h1 : cfg.normalizeNextQueryParam K = none)
    (h2 : ∀ k, cfg.normalizeNextQueryParam k ≠ some K) :
    ∀ (ks : List String) (acc : Query × List String),
      getA (ks.foldl (normParamStep cfg) acc).1 K = getA acc.1 K := by
  intro ks
  induction ks with
  | nil => intro acc; rfl
  | cons k rest ih =>
    intro acc
    rw [List.foldl_cons, ih]
    show getA (normParamStep cfg acc k).1 K = getA acc.1 K
    unfold normParamStep
    cases hnk : cfg.normalizeNextQueryParam k with
    | none => rfl
    | some nk =>
      have hkK : k ≠ K := by
        intro hk
        rw [hk, h1] at hnk
        cases hnk
      have hnkK : nk ≠ K := by
        intro hk
        rw [hk] at hnk
        exact h2 k hnk
      show getA (delA (setA acc.1 nk _) k) K = getA acc.1 K
      rw [getA_delA_other _ _ _ (Ne.symm hkK), getA_setA_other _ _ _ _ (Ne.symm hnkK)]

theorem normParamFold_keys (cfg : MinimalConfig) :
    ∀ (ks : List String) (acc : Query × List String) (x : String),
      x ∈ (ks.foldl (normParamStep cfg) acc).2 →
      x ∈ acc.2 ∨ ∃ k, cfg.normalizeNextQueryParam k = some x := by
  intro ks
  induction ks with
  | nil => intro acc x hx; exact Or.inl hx
  | cons k rest ih =>
    intro acc x hx
    rw [List.foldl_cons] at hx
    rcases ih (normParamStep cfg acc k) x hx with hmem | him
    · unfold normParamStep at hmem
      cases hnk : cfg.normalizeNextQueryParam k with
      | none => rw [hnk] at hmem; exact Or.inl hmem
      | some nk =>
        rw [hnk] at hmem
        rcases List.mem_append.mp hmem with hl | hr
        · exact Or.inl hl
        · right
          refine ⟨k, ?_⟩
          rw [hnk]
          simp at hr
          rw [hr]
    · exact Or.inr him

theorem normParamLoop_getA (cfg : MinimalConfig) (q : Query) (K : String)
    (h1 : cfg.normalizeNextQueryParam K = none)
    (h2 : ∀ k, cfg.normalizeNextQueryParam k ≠ some K) :
    getA (normParamLoop cfg q).1 K = getA q K :=
  normParamFold_getA cfg K h1 h2 (q.map Prod.fst) (q, [])

theorem normParamLoop_keys (cfg : MinimalConfig) (q : Query) (x : String)
    (hx : x ∈ (normParamLoop cfg q).2) :
    ∃ k, cfg.normalizeNextQueryParam k = some x := by
  rcases normParamFold_keys cfg (q.map Prod.fst) (q, []) x hx with hmem | him
  · cases hmem
  · exact him

theorem delFold_getA_notMem (rk : List String) (q : Query) (K : String)
    (h : K ∉ rk) : getA (rk.foldl delA q) K = getA q K := by
  induction rk generalizing q with
  | nil => rfl
  | cons k rest ih =>
    rw [List.foldl_cons]
    have hkK : K ≠ k := fun hk => h (by rw [hk]; exact List.mem_cons_self k rest)
    rw [ih (delA q k) (fun hm => h (List.mem_cons_of_mem k hm))]
    exact getA_delA_other q k K hkK

theorem delFold_getA_none (rk : List String) (q : Query) (K : String)
    (h : getA q K = none) : getA (rk.foldl delA q) K = none := by
  induction rk generalizing q with
  | nil => exact h
  | cons k rest ih =>
    rw [List.foldl_cons]
    apply ih
    by_cases hk : K = k
    · rw [hk]; exact getA_delA_same q k
    · rw [getA_delA_other q k K hk]; exact h

theorem finalLocale_truthy (q : Query) (i18n : Option LocaleAnalysisResult)
    (dl : Option String) (h : jsTruthyQ q "__nextLocale" = true) :
    finalLocale q i18n dl = q := by
  unfold finalLocale
  rw [if_pos h]

theorem finalLocale_getA_other (q : Query) (i18n : Option LocaleAnalysisResult)
    (dl : Option String) (K : String)
    (h1 : K ≠ "__nextLocale") (h2 : K ≠ "__nextInferredLocaleFromDefault") :
    getA (finalLocale q i18n dl) K = getA q K := by
  unfold finalLocale
  split
  · rfl
  · split
    · rw [getA_setA_other _ _ _ _ h1]
    · split
      · rw [getA_setA_other _ _ _ _ h2, getA_setA_other _ _ _ _ h1]
      · rfl

theorem dynamicStage_false (cfg : MinimalConfig) (u : Utils) (headers : Headers)
    (url : String) (q : Query) (mp nup sp : String) :
    dynamicStage cfg u headers url q mp nup sp false = (q, mp, url) := rfl

theorem dynamicStage_fst (cfg : MinimalConfig) (u : Utils) (headers : Headers)
    (url : String) (q : Query) (mp nup sp : String) :
    (dynamicStage cfg u headers url q mp nup sp true).1 =
      (dynRouteMatchesStep cfg u headers q mp (dynPR1 cfg u q nup true)
        (if (dynPR1 cfg u q nup true).hasValidParams then
          some (dynPR1 cfg u q nup true).params
        else some [])).1 := by
  unfold dynamicStage
  rw [if_pos rfl]
  split <;> rfl

theorem dynRouteMatchesStep_of_false (cfg : MinimalConfig) (u : Utils)
    (headers : Headers) (q : Query) (mp : String) (pr1 : ParamsResult)
    (params1 : Option Query)
    (h : jsTruthyH (getA headers "x-now-route-matches") = false) :
    dynRouteMatchesStep cfg u headers q mp pr1 params1 = (q, params1, pr1) := by
  unfold dynRouteMatchesStep
  rw [h]
  rfl

theorem dynRouteMatchesStep_fst_other (cfg : MinimalConfig) (u : Utils)
    (headers : Headers) (q : Query) (mp : String) (pr1 : ParamsResult)
    (params1 : Option Query) (K : String)
    (h1 : K ≠ "__nextLocale") (h2 : K ≠ "__nextInferredLocaleFromDefault") :
    getA (dynRouteMatchesStep cfg u headers q mp pr1 params1).1 K = getA q K := by
  unfold dynRouteMatchesStep
  split
  · dsimp only
    split
    · rw [getA_delA_other _ _ _ h2, getA_setA_other _ _ _ _ h1]
    · rfl
  · rfl

theorem dynRouteMatchesStep_fst_locale (cfg : MinimalConfig) (u : Utils)
    (headers : Headers) (q : Query) (mp : String) (pr1 : ParamsResult)
    (params1 : Option Query)
    (hc : (jsTruthyH (getA headers "x-now-route-matches")
      && cfg.isDynamicRoute mp && !pr1.hasValidParams) = true)
    (hloc : jsTruthyS (u.getParamsFromRouteMatches headers (qValOr q "__nextLocale")).2 = true) :
    (dynRouteMatchesStep cfg u headers q mp pr1 params1).1 =
      delA (setA q "__nextLocale"
        (u.getParamsFromRouteMatches headers (qValOr q "__nextLocale")).2)
        "__nextInferredLocaleFromDefault" := by
  unfold dynRouteMatchesStep
  rw [if_pos hc]
  dsimp only
  rw [if_pos hloc]

theorem dynamicStage_fst_other (cfg : MinimalConfig) (u : Utils) (headers : Headers)
    (url : String) (q : Query) (mp nup sp : String) (pid : Bool) (K : String)
    (h1 : K ≠ "__nextLocale") (h2 : K ≠ "__nextInferredLocaleFromDefault") :
    getA (dynamicStage cfg u headers url q mp nup sp pid).1 K = getA q K := by
  cases pid with
  | false => rw [dynamicStage_false]
  | true =>
    rw [dynamicStage_fst]
    exact dynRouteMatchesStep_fst_other cfg u headers q mp _ _ K h1 h2

theorem extractStage_query_data (cfg : MinimalConfig) (p : PreOut)
    (hdata : normMatchesOpt cfg.normalizers.data
      (cfg.urlPathnameOf p.s.req.url) = true) :
    (extractStage cfg p).s.parsedURL.query =
      setA p.s.parsedURL.query "__nextDataReq" (some "1") := by
  unfold extractStage
  rw [if_pos hdata]

/-! ## Claim C3 -/

/-- The final parsed-query entry for key `k` after a successful `adapt`
(`none` when `adapt` threw). -/
def adaptQuery (cfg : MinimalConfig) (s : AdaptState) (k : String) :
    Option (Option (Option String)) :=
  (minimalAdapt cfg s).toOption.map (fun o => getA o.parsedURL.query k)

/-- The final request-metadata entry for key `k` after a successful `adapt`
(`none` when `adapt` threw). -/
def adaptMeta (cfg : MinimalConfig) (s : AdaptState) (k : String) :
    Option (Option MetaVal) :=
  (minimalAdapt cfg s).toOption.map (fun o => getA o.req.meta k)

/-- A data-shape normalizer recognizing one concrete data URL. -/
def c3DataN : Normalizer where
  matchFn := fun p => p == "/_next/data/b/foo.json"
  normalize := fun _ _ => "/foo"

/-- `testCfg` with the data normalizer configured (pages router). -/
def c3xCfg : MinimalConfig :=
  { testCfg with normalizers := { testNormalizers with data := some c3DataN } }

/-- A request whose `x-matched-path` header matches the data shape while its
URL pathname (`req.url`) does not. -/
def c3xState : AdaptState where
  req :=
    { headers := [("x-matched-path", HVal.str "/_next/data/b/foo.json")],
      url := "/foo", method := "GET", body := [], meta := [] }
  parsedURL := { pathname := some "/foo", hostname := none, query := [] }

/-- Claim C3 counterexample: the matched pathname (from `x-matched-path`)
matches the data shape, yet `adapt` completes with no `__nextDataReq` key:
line 227 tests the URL pathname (from `req.url`), not the matched
pathname. -/
theorem c3_counterexample :
    normMatchesOpt c3xCfg.normalizers.data
        (c3xCfg.urlPathnameOf "/_next/data/b/foo.json") = true ∧
      getA c3xState.req.headers "x-matched-path"
        = some (HVal.str "/_next/data/b/foo.json") ∧
      adaptQuery c3xCfg c3xState "__nextDataReq" = some none := by
  refine ⟨by decide, by decide, by decide⟩

/-- Claim C3 (amended): in `MinimalRequestAdapter.adapt`, for every request
whose URL pathname (taken from `req.url`, not from the `x-matched-path`
header) matches the data shape, the reserved query key `__nextDataReq` is
`"1"` in the final query — provided the rewrite engine and the query-key
normalization collaborators leave that reserved key alone, which the real
collaborators do. -/
theorem c3_amended (cfg : MinimalConfig) (s : AdaptState)
    (hok : preOk cfg s = true)
    (hdata : normMatchesOpt cfg.normalizers.data
      (cfg.urlPathnameOf (preOutOf cfg s).s.req.url) = true)
    (hn1 : ∀ k, cfg.normalizeNextQueryParam k ≠ some "__nextDataReq")
    (hn2 : cfg.normalizeNextQueryParam "__nextDataReq" = none)
    (hrw : getA (cOutOf cfg s).s.parsedURL.query "__nextDataReq"
      = getA (bOutOf cfg s).s.parsedURL.query "__nextDataReq") :
    adaptQuery cfg s "__nextDataReq" = some (some (some "1")) := by
  have hKl : "__nextDataReq" ≠ "__nextLocale" := by decide
  have hKm : "__nextDataReq" ≠ "__nextInferredLocaleFromDefault" := by decide
  unfold adaptQuery
  rw [minimalAdapt_eq_of_preOk cfg s hok]
  show some (getA (stageC2 cfg (cOutOf cfg s)).parsedURL.query "__nextDataReq") = _
  rw [stageC2_query]
  rw [finalLocale_getA_other _ _ _ _ hKl hKm]
  rw [delFold_getA_notMem _ _ _ ?hmem]
  case hmem =>
    intro hmem
    obtain ⟨k, hk⟩ := normParamLoop_keys cfg _ _ hmem
    exact hn1 k hk
  rw [dynamicStage_fst_other _ _ _ _ _ _ _ _ _ _ hKl hKm]
  rw [normParamLoop_getA cfg _ _ hn2 hn1]
  rw [hrw]
  unfold bOutOf
  rw [stageB_query_other _ _ _ hKl hKm]
  unfold aOutOf
  rw [extractStage_query_data cfg _ hdata]
  rw [getA_setA_same]

/-- A request whose URL pathname matches the data shape. -/
def c3wState : AdaptState where
  req :=
    { headers := [("x-matched-path", HVal.str "/foo")],
      url := "/_next/data/b/foo.json", method := "GET", body := [], meta := [] }
  parsedURL := { pathname := some "/foo", hostname := none, query := [] }

/-- Witness for the amended C3 at a concrete request. -/
theorem c3_witness : adaptQuery c3xCfg c3wState "__nextDataReq" = some (some (some "1")) :=
  c3_amended c3xCfg c3wState (by decide) (by decide)
    (fun k h => Option.noConfusion h) rfl (by decide)

/-! ## Claim C6 -/

theorem extractStage_postponed (cfg : MinimalConfig) (p : PreOut)
    (hdata : normMatchesOpt cfg.normalizers.data
      (cfg.urlPathnameOf p.s.req.url) = false)
    (hcond : (normMatchesOpt cfg.normalizers.postponed (cfg.urlPathnameOf p.mp)
      && p.s.req.method == "POST") = true) :
    extractStage cfg p =
      { s := extractPostponedState cfg p,
        i18n := p.i18n, matchedPath := cfg.urlPathnameOf p.mp,
        urlPathname :=
          if !jsTruthyH (getA p.s.req.headers "x-now-route-matches") then
            normalizeOpt cfg.normalizers.postponed (cfg.urlPathnameOf p.mp) true
          else cfg.urlPathnameOf p.s.req.url } := by
  unfold extractStage
  rw [if_neg (by rw [hdata]; exact Bool.false_ne_true), if_pos hcond]

/-- A postponed-shape normalizer recognizing one concrete resume path. -/
def c6PostN : Normalizer where
  matchFn := fun p => p == "/p.postponed"
  normalize := fun _ _ => "/p"

/-- `testCfg` with the postponed normalizer configured. -/
def c6xCfg : MinimalConfig :=
  { testCfg with normalizers := { testNormalizers with postponed := some c6PostN } }

/-- A POST resume request whose `x-now-route-matches` header is present but
empty. -/
def c6xState : AdaptState where
  req :=
    { headers := [("x-matched-path", HVal.str "/p.postponed"),
        ("x-now-route-matches", HVal.str "")],
      url := "/u", method := "POST", body := [], meta := [] }
  parsedURL := { pathname := some "/u", hostname := none, query := [] }

/-- Claim C6 counterexample: the `x-now-route-matches` header is PRESENT
(with an empty value), yet the postponed normalization still overrides the
URL pathname (to `"/p"` instead of the URL's own `"/u"`): line 251 tests JS
truthiness, and an empty header value is falsy.  This refutes "the URL
pathname is recomputed ... exactly when the x-now-route-matches header is
absent". -/
theorem c6_counterexample :
    getA c6xState.req.headers "x-now-route-matches" = some (HVal.str "") ∧
      (aOutOf c6xCfg c6xState).urlPathname = "/p" ∧
      c6xCfg.urlPathnameOf (preOutOf c6xCfg c6xState).s.req.url = "/u" := by
  refine ⟨by decide, by decide, by decide⟩

/-- Claim C6 (amended): for every request whose matched path matches the
postponed shape and whose method is POST (and whose URL pathname does not
match the data shape, which line 227 checks first), all body chunks are
concatenated, UTF-8 decoded and stored verbatim in the `postponed` metadata
slot of the final state; and the working URL pathname is recomputed by
postponed-normalizing the matched pathname exactly when the
`x-now-route-matches` header is falsy (absent or empty). -/
theorem c6_postponed (cfg : MinimalConfig) (s : AdaptState)
    (hok : preOk cfg s = true)
    (hdata : normMatchesOpt cfg.normalizers.data
      (cfg.urlPathnameOf (preOutOf cfg s).s.req.url) = false)
    (hpost : normMatchesOpt cfg.normalizers.postponed
      (cfg.urlPathnameOf (preOutOf cfg s).mp) = true)
    (hmeth : (preOutOf cfg s).s.req.method = "POST") :
    adaptMeta cfg s "postponed" =
      some (some (MetaVal.str (cfg.utf8Decode (preOutOf cfg s).s.req.body.flatten))) ∧
    (aOutOf cfg s).urlPathname =
      (if !jsTruthyH (getA (preOutOf cfg s).s.req.headers "x-now-route-matches") then
        normalizeOpt cfg.normalizers.postponed (cfg.urlPathnameOf (preOutOf cfg s).mp) true
      else cfg.urlPathnameOf (preOutOf cfg s).s.req.url) := by
  have hcond : (normMatchesOpt cfg.normalizers.postponed
      (cfg.urlPathnameOf (preOutOf cfg s).mp)
      && (preOutOf cfg s).s.req.method == "POST") = true := by
    rw [hpost, hmeth]
    rfl
  constructor
  · unfold adaptMeta
    rw [minimalAdapt_eq_of_preOk cfg s hok]
    show some (getA (stageC2 cfg (cOutOf cfg s)).req.meta "postponed") = _
    rw [stageC2_meta]
    unfold cOutOf
    rw [stageC1_meta_other _ _ _ (by decide)]
    unfold bOutOf
    rw [show (stageB cfg (aOutOf cfg s)).s.req = (aOutOf cfg s).s.req from rfl]
    unfold aOutOf
    rw [extractStage_postponed cfg _ hdata hcond]
    show some (getA (extractPostponedState cfg (preOutOf cfg s)).req.meta "postponed") = _
    unfold extractPostponedState
    rw [show ({ (preOutOf cfg s).s with req := { (preOutOf cfg s).s.req with
        meta := setA (preOutOf cfg s).s.req.meta "postponed"
          (MetaVal.str (cfg.utf8Decode (preOutOf cfg s).s.req.body.flatten)) } } :
        AdaptState).req.meta = setA (preOutOf cfg s).s.req.meta "postponed"
          (MetaVal.str (cfg.utf8Decode (preOutOf cfg s).s.req.body.flatten)) from rfl]
    rw [getA_setA_same]
  · unfold aOutOf
    rw [extractStage_postponed cfg _ hdata hcond]

/-- `c6xCfg` with a UTF-8 decoder pinned at the witness body. -/
def c6wCfg : MinimalConfig :=
  { c6xCfg with utf8Decode := fun bytes => if bytes = [104, 105] then "hi" else "" }

/-- A POST resume request with two body chunks and no route-matches
header. -/
def c6wState : AdaptState where
  req :=
    { headers := [("x-matched-path", HVal.str "/p.postponed")],
      url := "/u", method := "POST", body := [[104], [105]], meta := [] }
  parsedURL := { pathname := some "/u", hostname := none, query := [] }

/-- Witness for the amended C6 at a concrete request. -/
theorem c6_witness :
    adaptMeta c6wCfg c6wState "postponed" = some (some (MetaVal.str "hi")) ∧
      (aOutOf c6wCfg c6wState).urlPathname = "/p" := by
  have h := c6_postponed c6wCfg c6wState (by decide) (by decide) (by decide) (by decide)
  constructor
  · rw [h.1]; decide
  · rw [h.2]; decide

/-! ## Claim C7 -/

theorem preStage_eq_of_preOk (cfg : MinimalConfig) (s : AdaptState)
    (h : preOk cfg s = true) : preStage cfg s = Except.ok (preOutOf cfg s) := by
  unfold preOk at h
  unfold preOutOf
  cases hp : preStage cfg s with
  | ok p => rfl
  | error e => rw [hp] at h; simp at h

/-- Claim C7: the `rewroteURL` metadata entry is recorded iff the pathname
actually changed.  Minimal adapter (lines 338-345): when the rewrite engine
changes the pathname (to a truthy `/b`), the final metadata carries
`rewroteURL = "/b"`; when it leaves the pathname unchanged, the final
`rewroteURL` entry is exactly the incoming one (none is added).  Internal
adapter (lines 58-73): provided the base adapter preserves the `rewroteURL`
entry (the real one never writes it), the entry is set to the final pathname
iff the pathname after the base adapt differs from the original, and is left
untouched otherwise. -/
theorem c7_rewrote_url :
    (∀ (cfg : MinimalConfig) (s : AdaptState) (np : String),
      preOk cfg s = true →
      (preRewritePUrl (bOutOf cfg s)).pathname ≠ (cOutOf cfg s).s.parsedURL.pathname →
      (cOutOf cfg s).s.parsedURL.pathname = some np → np ≠ "" →
      adaptMeta cfg s "rewroteURL" = some (some (MetaVal.str np)))
    ∧ (∀ (cfg : MinimalConfig) (s : AdaptState),
      preOk cfg s = true →
      (preRewritePUrl (bOutOf cfg s)).pathname = (cOutOf cfg s).s.parsedURL.pathname →
      adaptMeta cfg s "rewroteURL" = some (getA s.req.meta "rewroteURL"))
    ∧ (∀ (icfg : InternalConfig) (s1 : AdaptState) (p : String) (r : AdaptState),
      internalAdaptRewrite icfg s1 p = InternalOutcome.ok r →
      getA (internalAfterBase icfg s1 p).req.meta "rewroteURL"
        = getA s1.req.meta "rewroteURL" →
      (s1.parsedURL.pathname ≠ (internalAfterBase icfg s1 p).parsedURL.pathname →
        getA r.req.meta "rewroteURL" =
          some (match (internalAfterBase icfg s1 p).parsedURL.pathname with
                | some ps => MetaVal.str ps
                | none => MetaVal.nullV)) ∧
      (s1.parsedURL.pathname = (internalAfterBase icfg s1 p).parsedURL.pathname →
        getA r.req.meta "rewroteURL" = getA s1.req.meta "rewroteURL")) := by
  refine ⟨?_, ?_, ?_⟩
  · intro cfg s np hok hne hp hnp
    unfold adaptMeta
    rw [minimalAdapt_eq_of_preOk cfg s hok]
    show some (getA (stageC2 cfg (cOutOf cfg s)).req.meta "rewroteURL") = _
    rw [stageC2_meta]
    unfold cOutOf at hne hp ⊢
    have hcond : (decide ((preRewritePUrl (bOutOf cfg s)).pathname
        ≠ (stageC1 cfg (bOutOf cfg s)).s.parsedURL.pathname)
        && jsTruthyS (stageC1 cfg (bOutOf cfg s)).s.parsedURL.pathname) = true := by
      rw [decide_eq_true hne, hp]
      show (true && (np != "")) = true
      simp [hnp]
    rw [stageC1_meta, if_pos hcond, getA_setA_same, hp]
    rfl
  · intro cfg s hok heq
    unfold adaptMeta
    rw [minimalAdapt_eq_of_preOk cfg s hok]
    show some (getA (stageC2 cfg (cOutOf cfg s)).req.meta "rewroteURL") = _
    rw [stageC2_meta]
    unfold cOutOf at heq ⊢
    rw [stageC1_meta, if_neg (by rw [heq]; simp)]
    unfold bOutOf
    rw [show (stageB cfg (aOutOf cfg s)).s.req = (aOutOf cfg s).s.req from rfl]
    unfold aOutOf
    rw [extractStage_meta_other _ _ _ (by decide)]
    rw [preStage_meta_other cfg s _ _ (preStage_eq_of_preOk cfg s hok)
      (by decide) (by decide)]
  · intro icfg s1 p r hr hbase
    constructor
    · intro hne
      unfold internalAdaptRewrite at hr
      rw [if_pos hne] at hr
      cases hr
      rw [getA_setA_same]
    · intro heq
      unfold internalAdaptRewrite at hr
      rw [if_neg (fun hcon => hcon heq)] at hr
      cases hr
      rw [hbase]

/-- A utils bundle whose rewrite engine always rewrites to `/b`. -/
def c7Utils : Utils :=
  { testUtils with
    handleRewrites := fun _ _ pu => ({ pu with pathname := some "/b" }, []) }

/-- `testCfg` with the always-rewriting engine. -/
def c7wCfg : MinimalConfig := { testCfg with getUtils := fun _ _ => c7Utils }

/-- A plain request at `/a`. -/
def c7wStateA : AdaptState where
  req :=
    { headers := [("x-matched-path", HVal.str "/a")],
      url := "/a", method := "GET", body := [], meta := [] }
  parsedURL := { pathname := some "/a", hostname := none, query := [] }

/-- A plain request at `/foo` under the non-rewriting `testCfg`. -/
def c7wStateB : AdaptState where
  req :=
    { headers := [("x-matched-path", HVal.str "/foo")],
      url := "/foo", method := "GET", body := [], meta := [] }
  parsedURL := { pathname := some "/foo", hostname := none, query := [] }

/-- Internal-adapter state whose pathname differs from the invoke path. -/
def c7iState : AdaptState where
  req := { headers := [], url := "/a", method := "GET", body := [], meta := [] }
  parsedURL := { pathname := some "/a", hostname := none, query := [] }

/-- The state `internalAdaptRewrite` produces for `c7iState` and invoke path
`/dest` under the identity base adapter. -/
def c7iR : AdaptState where
  req :=
    { headers := [], url := "/a", method := "GET", body := [],
      meta := [("rewroteURL", MetaVal.str "/dest")] }
  parsedURL := { pathname := some "/dest", hostname := none, query := [] }

/-- Internal-adapter state already at the invoke path. -/
def c7iState2 : AdaptState where
  req := { headers := [], url := "/dest", method := "GET", body := [], meta := [] }
  parsedURL := { pathname := some "/dest", hostname := none, query := [] }

/-- Witness for C7 at concrete requests: a changed and an unchanged pathname
through each adapter. -/
theorem c7_witness :
    adaptMeta c7wCfg c7wStateA "rewroteURL" = some (some (MetaVal.str "/b")) ∧
      adaptMeta testCfg c7wStateB "rewroteURL" = some none ∧
      getA c7iR.req.meta "rewroteURL" = some (MetaVal.str "/dest") ∧
      getA c7iState2.req.meta "rewroteURL" = none := by
  refine ⟨?_, ?_, ?_, ?_⟩
  · exact c7_rewrote_url.1 c7wCfg c7wStateA "/b" (by decide) (by decide) (by decide)
      (by decide)
  · have h := c7_rewrote_url.2.1 testCfg c7wStateB (by decide) (by decide)
    rw [h]
    decide
  · have h := (c7_rewrote_url.2.2 testInternalCfg c7iState "/dest" c7iR (by decide)
      (by decide)).1 (by decide)
    rw [h]
    decide
  · have h := (c7_rewrote_url.2.2 testInternalCfg c7iState2 "/dest" c7iState2 (by decide)
      (by decide)).2 (by decide)
    rw [h]
    decide

/-! ## Claim C5 -/

theorem dynamicStage_fst_header_false (cfg : MinimalConfig) (u : Utils)
    (headers : Headers) (url : String) (q : Query) (mp nup sp : String) (pid : Bool)
    (h : jsTruthyH (getA headers "x-now-route-matches") = false) :
    (dynamicStage cfg u headers url q mp nup sp pid).1 = q := by
  cases pid with
  | false => rw [dynamicStage_false]
  | true =>
    rw [dynamicStage_fst, dynRouteMatchesStep_of_false _ _ _ _ _ _ _ h]

/-- Claim C5: locale inference and the explicit route-matches override.

Scenario (a): when the locale analysis of the matched path detects no
explicit locale and infers the default `"en"` (`detectedLocale = "en"`,
`inferredFromDefault = true`), and no truthy `x-now-route-matches` header is
present, the final query carries `__nextLocale = "en"` and
`__nextInferredLocaleFromDefault = "1"` — provided the rewrite engine and
the query-key normalization collaborators leave the two reserved locale
keys alone, as the real collaborators do.

Scenario (b): when the dynamic route-matches extraction runs and supplies
the explicit locale `"fr"`, the final query carries `__nextLocale = "fr"`
and the inferred marker is absent. -/
theorem c5_locale_inference :
    (∀ (cfg : MinimalConfig) (s : AdaptState) (r : LocaleAnalysisResult),
      preOk cfg s = true →
      (bOutOf cfg s).lar = some r →
      r.detectedLocale = some "en" →
      r.inferredFromDefault = true →
      jsTruthyH (getA (cOutOf cfg s).s.req.headers "x-now-route-matches") = false →
      (∀ k, cfg.normalizeNextQueryParam k ≠ some "__nextLocale") →
      cfg.normalizeNextQueryParam "__nextLocale" = none →
      (∀ k, cfg.normalizeNextQueryParam k ≠ some "__nextInferredLocaleFromDefault") →
      cfg.normalizeNextQueryParam "__nextInferredLocaleFromDefault" = none →
      getA (cOutOf cfg s).s.parsedURL.query "__nextLocale"
        = getA (bOutOf cfg s).s.parsedURL.query "__nextLocale" →
      getA (cOutOf cfg s).s.parsedURL.query "__nextInferredLocaleFromDefault"
        = getA (bOutOf cfg s).s.parsedURL.query "__nextInferredLocaleFromDefault" →
      adaptQuery cfg s "__nextLocale" = some (some (some "en")) ∧
        adaptQuery cfg s "__nextInferredLocaleFromDefault" = some (some (some "1")))
    ∧ (∀ (cfg : MinimalConfig) (s : AdaptState),
      preOk cfg s = true →
      (cOutOf cfg s).pageIsDynamic = true →
      (jsTruthyH (getA (cOutOf cfg s).s.req.headers "x-now-route-matches")
        && cfg.isDynamicRoute (cOutOf cfg s).matchedPath
        && !(dynPR1 cfg (cOutOf cfg s).utils
            (normParamLoop cfg (cOutOf cfg s).s.parsedURL.query).1
            (cOutOf cfg s).normalizedUrlPath true).hasValidParams) = true →
      ((cOutOf cfg s).utils.getParamsFromRouteMatches (cOutOf cfg s).s.req.headers
        (qValOr (normParamLoop cfg (cOutOf cfg s).s.parsedURL.query).1 "__nextLocale")).2
        = some "fr" →
      (∀ k, cfg.normalizeNextQueryParam k ≠ some "__nextLocale") →
      adaptQuery cfg s "__nextLocale" = some (some (some "fr")) ∧
        adaptQuery cfg s "__nextInferredLocaleFromDefault" = some none) := by
  constructor
  · intro cfg s r hok hlar hdet hinf hhdr hn1 hn2 hn3 hn4 hrw1 hrw2
    have hlar' : (stageB cfg (aOutOf cfg s)).lar = some r := by
      unfold bOutOf at hlar; exact hlar
    have hbloc : getA (bOutOf cfg s).s.parsedURL.query "__nextLocale"
        = some r.detectedLocale := by
      unfold bOutOf
      rw [stageB_query, hlar']
      dsimp only
      rw [if_pos hinf]
      rw [getA_setA_other _ _ _ _ (by decide), getA_setA_same]
    have hbmar : getA (bOutOf cfg s).s.parsedURL.query "__nextInferredLocaleFromDefault"
        = some (some "1") := by
      unfold bOutOf
      rw [stageB_query, hlar']
      dsimp only
      rw [if_pos hinf, getA_setA_same]
    have hmemloc : "__nextLocale" ∉ (normParamLoop cfg (cOutOf cfg s).s.parsedURL.query).2 := by
      intro hmem
      obtain ⟨k, hk⟩ := normParamLoop_keys cfg _ _ hmem
      exact hn1 k hk
    have hmemmar : "__nextInferredLocaleFromDefault"
        ∉ (normParamLoop cfg (cOutOf cfg s).s.parsedURL.query).2 := by
      intro hmem
      obtain ⟨k, hk⟩ := normParamLoop_keys cfg _ _ hmem
      exact hn3 k hk
    have hdyn1 : (dynamicStage cfg (cOutOf cfg s).utils (cOutOf cfg s).s.req.headers
        (cOutOf cfg s).s.req.url (normParamLoop cfg (cOutOf cfg s).s.parsedURL.query).1
        (cOutOf cfg s).matchedPath (cOutOf cfg s).normalizedUrlPath
        (cOutOf cfg s).srcPathname (cOutOf cfg s).pageIsDynamic).1
        = (normParamLoop cfg (cOutOf cfg s).s.parsedURL.query).1 :=
      dynamicStage_fst_header_false _ _ _ _ _ _ _ _ _ hhdr
    have hq3loc : getA ((normParamLoop cfg (cOutOf cfg s).s.parsedURL.query).2.foldl delA
        (dynamicStage cfg (cOutOf cfg s).utils (cOutOf cfg s).s.req.headers
          (cOutOf cfg s).s.req.url (normParamLoop cfg (cOutOf cfg s).s.parsedURL.query).1
          (cOutOf cfg s).matchedPath (cOutOf cfg s).normalizedUrlPath
          (cOutOf cfg s).srcPathname (cOutOf cfg s).pageIsDynamic).1) "__nextLocale"
        = some (some "en") := by
      rw [hdyn1, delFold_getA_notMem _ _ _ hmemloc,
        normParamLoop_getA cfg _ _ hn2 hn1, hrw1, hbloc, hdet]
    have hq3mar : getA ((normParamLoop cfg (cOutOf cfg s).s.parsedURL.query).2.foldl delA
        (dynamicStage cfg (cOutOf cfg s).utils (cOutOf cfg s).s.req.headers
          (cOutOf cfg s).s.req.url (normParamLoop cfg (cOutOf cfg s).s.parsedURL.query).1
          (cOutOf cfg s).matchedPath (cOutOf cfg s).normalizedUrlPath
          (cOutOf cfg s).srcPathname (cOutOf cfg s).pageIsDynamic).1)
        "__nextInferredLocaleFromDefault" = some (some "1") := by
      rw [hdyn1, delFold_getA_notMem _ _ _ hmemmar,
        normParamLoop_getA cfg _ _ hn4 hn3, hrw2, hbmar]
    have htr : jsTruthyQ ((normParamLoop cfg (cOutOf cfg s).s.parsedURL.query).2.foldl delA
        (dynamicStage cfg (cOutOf cfg s).utils (cOutOf cfg s).s.req.headers
          (cOutOf cfg s).s.req.url (normParamLoop cfg (cOutOf cfg s).s.parsedURL.query).1
          (cOutOf cfg s).matchedPath (cOutOf cfg s).normalizedUrlPath
          (cOutOf cfg s).srcPathname (cOutOf cfg s).pageIsDynamic).1) "__nextLocale"
        = true := by
      unfold jsTruthyQ getQv
      rw [hq3loc]
      rfl
    constructor
    · unfold adaptQuery
      rw [minimalAdapt_eq_of_preOk cfg s hok]
      show some (getA (stageC2 cfg (cOutOf cfg s)).parsedURL.query "__nextLocale") = _
      rw [stageC2_query, finalLocale_truthy _ _ _ htr, hq3loc]
    · unfold adaptQuery
      rw [minimalAdapt_eq_of_preOk cfg s hok]
      show some (getA (stageC2 cfg (cOutOf cfg s)).parsedURL.query
        "__nextInferredLocaleFromDefault") = _
      rw [stageC2_query, finalLocale_truthy _ _ _ htr, hq3mar]
  · intro cfg s hok hdyn hc hfr hn1
    have hloc : jsTruthyS ((cOutOf cfg s).utils.getParamsFromRouteMatches
        (cOutOf cfg s).s.req.headers
        (qValOr (normParamLoop cfg (cOutOf cfg s).s.parsedURL.query).1 "__nextLocale")).2
        = true := by
      rw [hfr]
      rfl
    have hmemloc : "__nextLocale" ∉ (normParamLoop cfg (cOutOf cfg s).s.parsedURL.query).2 := by
      intro hmem
      obtain ⟨k, hk⟩ := normParamLoop_keys cfg _ _ hmem
      exact hn1 k hk
    have hdyn1 : (dynamicStage cfg (cOutOf cfg s).utils (cOutOf cfg s).s.req.headers
        (cOutOf cfg s).s.req.url (normParamLoop cfg (cOutOf cfg s).s.parsedURL.query).1
        (cOutOf cfg s).matchedPath (cOutOf cfg s).normalizedUrlPath
        (cOutOf cfg s).srcPathname (cOutOf cfg s).pageIsDynamic).1
        = delA (setA (normParamLoop cfg (cOutOf cfg s).s.parsedURL.query).1
            "__nextLocale" (some "fr")) "__nextInferredLocaleFromDefault" := by
      rw [hdyn, dynamicStage_fst,
        dynRouteMatchesStep_fst_locale _ _ _ _ _ _ _ hc hloc, hfr]
    have hq3loc : getA ((normParamLoop cfg (cOutOf cfg s).s.parsedURL.query).2.foldl delA
        (dynamicStage cfg (cOutOf cfg s).utils (cOutOf cfg s).s.req.headers
          (cOutOf cfg s).s.req.url (normParamLoop cfg (cOutOf cfg s).s.parsedURL.query).1
          (cOutOf cfg s).matchedPath (cOutOf cfg s).normalizedUrlPath
          (cOutOf cfg s).srcPathname (cOutOf cfg s).pageIsDynamic).1) "__nextLocale"
        = some (some "fr") := by
      rw [hdyn1, delFold_getA_notMem _ _ _ hmemloc,
        getA_delA_other _ _ _ (by decide), getA_setA_same]
    have hq3mar : getA ((normParamLoop cfg (cOutOf cfg s).s.parsedURL.query).2.foldl delA
        (dynamicStage cfg (cOutOf cfg s).utils (cOutOf cfg s).s.req.headers
          (cOutOf cfg s).s.req.url (normParamLoop cfg (cOutOf cfg s).s.parsedURL.query).1
          (cOutOf cfg s).matchedPath (cOutOf cfg s).normalizedUrlPath
          (cOutOf cfg s).srcPathname (cOutOf cfg s).pageIsDynamic).1)
        "__nextInferredLocaleFromDefault" = none := by
      rw [hdyn1]
      apply delFold_getA_none
      rw [getA_delA_same]
    have htr : jsTruthyQ ((normParamLoop cfg (cOutOf cfg s).s.parsedURL.query).2.foldl delA
        (dynamicStage cfg (cOutOf cfg s).utils (cOutOf cfg s).s.req.headers
          (cOutOf cfg s).s.req.url (normParamLoop cfg (cOutOf cfg s).s.parsedURL.query).1
          (cOutOf cfg s).matchedPath (cOutOf cfg s).normalizedUrlPath
          (cOutOf cfg s).srcPathname (cOutOf cfg s).pageIsDynamic).1) "__nextLocale"
        = true := by
      unfold jsTruthyQ getQv
      rw [hq3loc]
      rfl
    constructor
    · unfold adaptQuery
      rw [minimalAdapt_eq_of_preOk cfg s hok]
      show some (getA (stageC2 cfg (cOutOf cfg s)).parsedURL.query "__nextLocale") = _
      rw [stageC2_query, finalLocale_truthy _ _ _ htr, hq3loc]
    · unfold adaptQuery
      rw [minimalAdapt_eq_of_preOk cfg s hok]
      show some (getA (stageC2 cfg (cOutOf cfg s)).parsedURL.query
        "__nextInferredLocaleFromDefault") = _
      rw [stageC2_query, finalLocale_truthy _ _ _ htr, hq3mar]

/-- An i18n provider that detects no explicit locale: it always echoes the
default locale as inferred. -/
def c5Prov : I18NProviderModel where
  analyze := fun p dl =>
    { pathname := p, detectedLocale := dl, inferredFromDefault := true }
  detectDomainLocale := fun _ => none
  configDefaultLocale := "en"

/-- `testCfg` with the inferring i18n provider. -/
def c5aCfg : MinimalConfig := { testCfg with i18nProvider := some c5Prov }

/-- A plain request with no locale anywhere. -/
def c5aState : AdaptState where
  req :=
    { headers := [("x-matched-path", HVal.str "/foo")],
      url := "/foo", method := "GET", body := [], meta := [] }
  parsedURL := { pathname := some "/foo", hostname := none, query := [] }

/-- A utils bundle whose route-matches extraction supplies the explicit
locale `fr`. -/
def c5bUtils : Utils :=
  { testUtils with getParamsFromRouteMatches := fun _ _ => ([], some "fr") }

/-- A configuration with a dynamic route `/[x]` and the `fr`-supplying
extraction. -/
def c5bCfg : MinimalConfig :=
  { testCfg with
    isDynamicRoute := fun p => p == "/[x]",
    getUtils := fun _ _ => c5bUtils }

/-- A request for the dynamic route carrying a truthy `x-now-route-matches`
header. -/
def c5bState : AdaptState where
  req :=
    { headers := [("x-matched-path", HVal.str "/[x]"),
        ("x-now-route-matches", HVal.str "x=1")],
      url := "/[x]", method := "GET", body := [], meta := [] }
  parsedURL := { pathname := some "/[x]", hostname := none, query := [] }

/-- Witness for C5 at concrete requests: the inferred-default scenario and
the explicit route-matches `fr` scenario. -/
theorem c5_witness :
    (adaptQuery c5aCfg c5aState "__nextLocale" = some (some (some "en")) ∧
      adaptQuery c5aCfg c5aState "__nextInferredLocaleFromDefault"
        = some (some (some "1"))) ∧
    (adaptQuery c5bCfg c5bState "__nextLocale" = some (some (some "fr")) ∧
      adaptQuery c5bCfg c5bState "__nextInferredLocaleFromDefault" = some none) := by
  constructor
  · exact c5_locale_inference.1 c5aCfg c5aState
      { pathname := "/foo", detectedLocale := some "en", inferredFromDefault := true }
      (by decide) (by decide) rfl rfl (by decide)
      (fun k h => Option.noConfusion h) rfl
      (fun k h => Option.noConfusion h) rfl
      (by decide) (by decide)
  · exact c5_locale_inference.2 c5bCfg c5bState
      (by decide) (by decide) (by decide) (by decide)
      (fun k h => Option.noConfusion h)
